import Mathlib

/- Verification development for the CDR (Call Detail Record) normalization
pipeline: per-operator CSV normalizers (airtel, jio, bsnl, vi variants) that
locate a header row and a correlation identifier (CdrNo) in noisy preamble,
map source columns to a canonical 26-column layout, enrich rows from cell and
routing reference tables, aggregate per-party and per-cell statistics, and
assemble ranked reports.  Go strings are modelled as Lean strings, Go maps as
functions to Option, fallible steps as Except, and the CSV record stream as a
list of records (lists of fields). -/

namespace CDRSpec

/- ───────────────────────── Go string primitives ───────────────────────── -/

/-- The apostrophe character, written via its code point. -/
def quoteCh : Char := Char.ofNat 39

/-- The double-quote character, written via its code point. -/
def dquoteCh : Char := Char.ofNat 34

/-- Whitespace recognised by Go strings.TrimSpace (ASCII subset). -/
def isSpaceGo (c : Char) : Bool :=
  c = ' ' || c = Char.ofNat 9 || c = Char.ofNat 10 || c = Char.ofNat 13 ||
  c = Char.ofNat 12 || c = Char.ofNat 11

/-- Characters matched by the Go regexp class backslash-s (space, tab,
newline, carriage return, form feed). -/
def isSpaceRE (c : Char) : Bool :=
  c = ' ' || c = Char.ofNat 9 || c = Char.ofNat 10 || c = Char.ofNat 13 ||
  c = Char.ofNat 12

/-- Trim leading and trailing whitespace from a character list
(strings.TrimSpace). -/
def trimCharList (cs : List Char) : List Char :=
  ((cs.dropWhile isSpaceGo).reverse.dropWhile isSpaceGo).reverse

/-- strings.TrimSpace. -/
def goTrim (s : String) : String := ⟨trimCharList s.data⟩

/-- Replace every maximal run of regexp-whitespace by a single space; the
Boolean flag records whether the previous character was such whitespace.
This is spaceRE.ReplaceAllString(s, " ") from the Go sources. -/
def collapseGo : Bool → List Char → List Char
  | _, [] => []
  | prevSp, c :: cs =>
    if isSpaceRE c then
      (if prevSp then [] else [' ']) ++ collapseGo true cs
    else c :: collapseGo false cs

/-- The norm helper shared by all operator variants: trim, lowercase, then
collapse whitespace runs to single spaces. -/
def normGo (s : String) : String :=
  ⟨collapseGo false ((trimCharList s.data).map Char.toLower)⟩

/-- Keep only ASCII digits: the nonDigit.ReplaceAllString(s, "") helper
(digits in the Go sources). -/
def digitsStr (s : String) : String := ⟨s.data.filter Char.isDigit⟩

/-- strings.ToUpper (ASCII). -/
def toUpperGo (s : String) : String := ⟨s.data.map Char.toUpper⟩

/-- strings.Contains: is pat an infix of s. -/
def containsSub (s pat : String) : Bool := decide (pat.data <:+: s.data)

/-- strings.HasSuffix. -/
def hasSuffixGo (s pat : String) : Bool := pat.data.isSuffixOf s.data

/-- Membership in the cutset used by strings.Trim on copied values:
apostrophe, double quote, or space. -/
def isQuoteSpace (c : Char) : Bool := c = quoteCh || c = dquoteCh || c = ' '

/-- strings.Trim(s, cutset) for the quote/space cutset used on every copied
field value. -/
def trimQS (s : String) : String :=
  ⟨((s.data.dropWhile isQuoteSpace).reverse.dropWhile isQuoteSpace).reverse⟩

/-- strings.Join(rec, " "). -/
def joinSpace (rec : List String) : String := String.intercalate " " rec

/-- filepath.Base, restricted to its behaviour on plain relative paths:
the component after the last slash. -/
def baseName (s : String) : String := ⟨(s.data.reverse.takeWhile (· ≠ '/')).reverse⟩

/-- Case-insensitive literal match: strip a lowercase literal from the front
of the input, comparing lowercased characters; returns the rest on success. -/
def stripCI : List Char → List Char → Option (List Char)
  | [], cs => some cs
  | _ :: _, [] => none
  | l :: ls, c :: cs => if c.toLower = l then stripCI ls cs else none

/- ─────────────── lexicographic byte order on strings (Go <) ───────────── -/

/-- Go string comparison a < b: lexicographic on the character sequence.
For the ASCII data handled by the pipeline this coincides with the Go
byte-wise comparison. -/
def lexLt : List Char → List Char → Bool
  | _, [] => false
  | [], _ :: _ => true
  | a :: as, b :: bs =>
    if a.toNat < b.toNat then true
    else if b.toNat < a.toNat then false
    else lexLt as bs

/-- Go string comparison on strings. -/
def strLt (a b : String) : Bool := lexLt a.data b.data

/- ────────────────────── canonical 26-column layout ────────────────────── -/

/-- The canonical output header shared by the airtel, jio, bsnl and vi
normalizers (targetHeader in each source file). -/
def targetHeader : List String :=
  ["CdrNo", "B Party", "Date", "Time", "Duration", "Call Type",
   "First Cell ID", "First Cell ID Address", "Last Cell ID", "Last Cell ID Address",
   "IMEI", "IMSI", "Roaming",
   "Main City(First CellID)", "Sub City (First CellID)", "Lat-Long-Azimuth (First CellID)",
   "Crime", "Circle", "Operator", "LRN",
   "CallForward", "B Party Provider", "B Party Circle", "B Party Operator",
   "Type", "IMEI Manufacturer"]

/-- Index of a canonical column name in targetHeader (the col map each
normalizer builds with col[h] = i). -/
def colT (name : String) : Nat := targetHeader.findIdx (· == name)

/-- A fresh canonical row: 26 empty fields (blank in the sources). -/
def blank26 : List String := List.replicate 26 ""

/-- Read a canonical row field by column name (row[col[name]]). -/
def rowGet (row : List String) (name : String) : String := row.getD (colT name) ""

/- ───────────────── airtel normalizer (airtel/airtel_filter.go) ─────────── -/

namespace Airtel

/-- Cell reference entry of the airtel variant. -/
structure CellInfoA where
  Address : String
  SubCity : String
  MainCity : String
  LatLongAzimuth : String

/-- Routing (LRN) reference entry. -/
structure LRNInfoA where
  Provider : String
  Circle : String
  Operator : String

/-- Header synonym table of airtel/airtel_filter.go (normalized source header
to canonical column name). -/
def synonyms : List (String × String) :=
  [("b party no", "B Party"), ("called party telephone number", "B Party"),
   ("call date", "Date"), ("date", "Date"),
   ("call time", "Time"), ("time", "Time"),
   ("dur(s)", "Duration"), ("call duration", "Duration"),
   ("imei", "IMEI"), ("imsi", "IMSI"),
   ("roam nw", "Roaming"), ("roaming circle name", "Circle"),
   ("circle", "Circle"), ("operator", "Operator"),
   ("lrn", "LRN"), ("lrn no", "LRN"), ("lrn number", "LRN"), ("lrn called no", "LRN"),
   ("call fow no", "CallForward"), ("call forwarding", "CallForward"),
   ("b party provider", "B Party Provider"), ("lrn tsp-lsa", "B Party Provider"),
   ("b party circle", "B Party Circle"), ("b party operator", "B Party Operator"),
   ("service type", "Type"), ("crime", "Crime")]

/-- Look up a normalized header name in the synonym table. -/
def lookupSyn (n : String) : Option String :=
  (synonyms.find? (fun p => p.1 = n)).map (·.2)

/-- Leftmost match of the banner regex (Mobile No quote digits quote) starting
exactly at the given character position: the literal, then one or more digits,
then a closing apostrophe; returns the digit capture. -/
def mobileNoAt (cs : List Char) : Option (List Char) :=
  let lit := ("Mobile No " ++ ⟨[quoteCh]⟩ : String).data
  if lit.isPrefixOf cs then
    let rest := cs.drop lit.length
    let ds := rest.takeWhile Char.isDigit
    if ds.isEmpty then none
    else if (rest.drop ds.length).head? = some quoteCh then some ds else none
  else none

/-- Scan every suffix left to right with a position matcher, returning the
leftmost match (regexp FindStringSubmatch semantics for this pattern). -/
def scanTails (f : List Char → Option (List Char)) : List Char → Option (List Char)
  | [] => f []
  | c :: cs =>
    match f (c :: cs) with
    | some r => some r
    | none => scanTails f cs

/-- extractCdrNumber of the airtel variant: first capture of the banner regex,
or the empty string when the regex does not match. -/
def extractCdrNumber (s : String) : String :=
  match scanTails mobileNoAt s.data with
  | some ds => ⟨ds⟩
  | none => ""

/-- Does a record look like the airtel header row: its first field contains
the literal Target No. -/
def isHeaderRec (rec : List String) : Bool :=
  decide (0 < rec.length) && containsSub (rec.headD "") "Target No"

/-- The header-locating loop of normalizeAirtel: read records, remember the
first non-empty banner extraction, stop at the first header record.  Returns
the accumulated CdrNo candidate, the header record, and the remaining
records; none when the stream ends first. -/
def locateAirtel : List (List String) → String → Option (String × List String × List (List String))
  | [], _ => none
  | rec :: rest, cdr =>
    let cdr1 := if cdr = "" then extractCdrNumber (rec.headD "") else cdr
    if isHeaderRec rec then some (cdr1, rec, rest) else locateAirtel rest cdr1

/-- The header scan of normalizeAirtel records the index of every match of a
normalized column name into an int that starts at zero, so the last match
wins and an absent column leaves zero. -/
def lastIdxGo (key : String) : List String → Nat → Nat → Nat
  | [], _, acc => acc
  | h :: t, i, acc => lastIdxGo key t (i + 1) (if normGo h = key then i else acc)

/-- Index of the last header column whose normalized name equals key,
defaulting to zero (the firstCGI/lastCGI scan of normalizeAirtel). -/
def lastIdxD (header : List String) (key : String) : Nat := lastIdxGo key header 0 0

/-- The per-field transform applied while copying source column values into
the canonical row (the Call Type switch of normalizeAirtel). -/
def xformA (d : Nat) (v : String) : String :=
  if targetHeader.getD d "" = "Call Type" then
    if toUpperGo v = "IN" ∨ toUpperGo v = "A_IN" then "CALL_IN"
    else if toUpperGo v = "OUT" ∨ toUpperGo v = "A_OUT" then "CALL_OUT"
    else v
  else v

/-- Destination column for a source column index: the copyMap of
normalizeAirtel after its firstCGI/lastCGI entries are overwritten. -/
def copyDst (header : List String) (fc lc i : Nat) : Option Nat :=
  if i = fc then some (colT "First Cell ID")
  else if i = lc then some (colT "Last Cell ID")
  else (lookupSyn (normGo (header.getD i ""))).map colT

/-- Copy every mapped source field into the canonical row, trimming quotes
and spaces and applying the per-field transform (the copyMap loop of
normalizeAirtel, linearized in ascending source-column order). -/
def rowCopy (header rec : List String) (fc lc : Nat) (row : List String) : List String :=
  (List.range header.length).foldl
    (fun row i =>
      match copyDst header fc lc i with
      | none => row
      | some d =>
        if i < rec.length then row.set d (xformA d (trimQS (rec.getD i ""))) else row)
    row

/-- enrichCell of the airtel variant: on a cell-table hit the first cell
identifier receives address, sub-city, main-city and the geo triple, the
last cell identifier receives the address only; a miss leaves the row
unchanged. -/
def enrichCell (db : String → Option CellInfoA) (row : List String) (id : String)
    (first : Bool) : List String :=
  match db id with
  | none => row
  | some info =>
    if first then
      ((((row.set (colT "First Cell ID Address") info.Address).set
          (colT "Sub City (First CellID)") info.SubCity).set
          (colT "Main City(First CellID)") info.MainCity).set
          (colT "Lat-Long-Azimuth (First CellID)") info.LatLongAzimuth)
    else row.set (colT "Last Cell ID Address") info.Address

/-- enrichLRN of the airtel variant. -/
def enrichLRN (db : String → Option LRNInfoA) (row : List String) : List String :=
  let lrn := digitsStr (rowGet row "LRN")
  if lrn = "" then row
  else
    match db lrn with
    | none => row
    | some info =>
      let row1 :=
        if rowGet row "B Party Provider" = "" then
          row.set (colT "B Party Provider") info.Provider
        else row
      let row2 := row1.set (colT "B Party Circle") info.Circle
      if info.Operator ≠ "" then row2.set (colT "B Party Operator") info.Operator
      else row2.set (colT "B Party Operator") info.Provider

/-- cleanCGI of the airtel variant: digits only. -/
def cleanCGI (s : String) : String := digitsStr s

/-- Build one canonical row from one data record (the per-record body of
normalizeAirtel). -/
def rowAirtel (cellDB : String → Option CellInfoA) (lrnDB : String → Option LRNInfoA)
    (header : List String) (fc lc : Nat) (cdr crime : String) (rec : List String) :
    List String :=
  let row0 := blank26.set (colT "CdrNo") cdr
  let row1 := rowCopy header rec fc lc row0
  let row2 := row1.set (colT "Crime") crime
  let row3 :=
    if cleanCGI (rec.getD fc "") ≠ "" then
      row2.set (colT "First Cell ID") (cleanCGI (rec.getD fc ""))
    else row2
  let row4 :=
    if cleanCGI (rec.getD lc "") ≠ "" then
      row3.set (colT "Last Cell ID") (cleanCGI (rec.getD lc ""))
    else row3
  let row5 := enrichCell cellDB row4 (rowGet row4 "First Cell ID") true
  let row6 := enrichCell cellDB row5 (rowGet row5 "Last Cell ID") false
  enrichLRN lrnDB row6

/-- normalizeAirtel of airtel/airtel_filter.go: locate the header and the
correlation identifier, fail on the three fatal conditions, otherwise emit
one canonical row per non-empty data record.  The reference tables are the
process-wide cellDB and lrnDB maps, passed explicitly. -/
def normalizeAirtel (cellDB : String → Option CellInfoA) (lrnDB : String → Option LRNInfoA)
    (input : List (List String)) (crime : String) : Except String (List (List String)) :=
  match locateAirtel input "" with
  | none => .error "no header"
  | some (cdr, header, rest) =>
    if cdr = "" then .error "cannot extract CDR"
    else
      let fc := lastIdxD header "first cgi"
      let lc := lastIdxD header "last cgi"
      if fc = 0 ∨ lc = 0 then .error "missing First/Last CGI"
      else
        .ok (rest.filterMap (fun rec =>
          if rec.length = 0 then none
          else some (rowAirtel cellDB lrnDB header fc lc cdr crime rec)))

/-- The emitted row table of a run: the payload of a successful run, no rows
for an aborted one. -/
def rowsOf (r : Except String (List (List String))) : List (List String) :=
  match r with
  | .ok rows => rows
  | .error _ => []

/- Claim-level descriptions of the three fatal conditions, stated over the
raw input stream. -/

/-- Fatal condition one: no record of the stream is a header record. -/
def noHeaderRow (input : List (List String)) : Bool :=
  input.all (fun r => !isHeaderRec r)

/-- The records scanned by the header-locating loop: everything before the
first header record, plus that header record itself. -/
def scannedRecs (input : List (List String)) : List (List String) :=
  input.takeWhile (fun r => !isHeaderRec r) ++
    (input.dropWhile (fun r => !isHeaderRec r)).take 1

/-- Fatal condition two: the banner extraction is empty on every scanned
record, so the correlation identifier is unresolvable. -/
def bannerEmpty (input : List (List String)) : Bool :=
  (scannedRecs input).all (fun r => extractCdrNumber (r.headD "") = "")

/-- The header record the loop stops at (meaningful when one exists). -/
def theHeader (input : List (List String)) : List String :=
  ((input.dropWhile (fun r => !isHeaderRec r)).headD [])

/-- Fatal condition three: a header record exists but lacks a first or last
cell-identifier column. -/
def cgiMissing (input : List (List String)) : Bool :=
  !noHeaderRow input &&
    (!(theHeader input).any (fun h => normGo h = "first cgi") ||
     !(theHeader input).any (fun h => normGo h = "last cgi"))

end Airtel

/- ─────────────── duration parsing (strconv.ParseFloat) ────────────────── -/

/-- Sign prefix of a numeral: true means negative; returns the rest. -/
def parseSign : List Char → Bool × List Char
  | '-' :: cs => (true, cs)
  | '+' :: cs => (false, cs)
  | cs => (false, cs)

/-- Value of a digit run. -/
def digitsVal (cs : List Char) : Nat := cs.foldl (fun a c => 10 * a + (c.toNat - 48)) 0

/-- Mantissa of a decimal numeral: its digit value, the number of fractional
digits, and the unconsumed rest; none when no digit is present. -/
def mantissa (cs : List Char) : Option (Nat × Nat × List Char) :=
  let ip := cs.takeWhile Char.isDigit
  let r1 := cs.dropWhile Char.isDigit
  match r1 with
  | '.' :: r2 =>
    let fp := r2.takeWhile Char.isDigit
    let r3 := r2.dropWhile Char.isDigit
    if ip.isEmpty && fp.isEmpty then none
    else some (digitsVal (ip ++ fp), fp.length, r3)
  | _ => if ip.isEmpty then none else some (digitsVal ip, 0, r1)

/-- Decimal exponent part after the e marker: sign and digits, nothing
trailing. -/
def expVal (cs : List Char) : Option Int :=
  let pr := parseSign cs
  let ds := pr.2.takeWhile Char.isDigit
  if ds.isEmpty || (pr.2.dropWhile Char.isDigit) ≠ [] then none
  else some (if pr.1 then -(digitsVal ds : Int) else (digitsVal ds : Int))

/-- Numeric representation of a decimal numeral: sign, mantissa digits,
fractional length, exponent.  none when the string is not a numeral. -/
def parseFloatRep (s : String) : Option (Bool × Nat × Nat × Int) :=
  let pr := parseSign s.data
  match mantissa pr.2 with
  | none => none
  | some (m, f, rest) =>
    match rest with
    | [] => some (pr.1, m, f, 0)
    | e :: rest2 =>
      if e = 'e' ∨ e = 'E' then
        match expVal rest2 with
        | none => none
        | some k => some (pr.1, m, f, k)
      else none

/-- Exact value of a parsed numeral representation. -/
def repToQ : Bool × Nat × Nat × Int → ℚ
  | (neg, m, f, k) => (if neg then (-1 : ℚ) else 1) * (m : ℚ) / (10 : ℚ) ^ f * (10 : ℚ) ^ k

/-- Embedding of strconv.ParseFloat on plain decimal numerals (optional sign,
digits with optional fraction, optional decimal exponent), with the parsed
value taken exactly as a rational. -/
def parseFloatQ (s : String) : Option ℚ := (parseFloatRep s).map repToQ

/- ─────────────────── aggregation engine (per-party) ───────────────────── -/

/-- Per-party aggregate of the airtel, jio, bsnl and vi summary builders
(the agg struct).  Typ stands for the source field named Type; the distinct
Days, Cells, Imeis and Imsis sets are kept as duplicate-free lists. -/
structure PartyAgg where
  BParty : String
  Provider : String
  SDR : String
  Typ : String
  Total : Nat
  Out : Nat
  In : Nat
  OutSMS : Nat
  InSMS : Nat
  Other : Nat
  RoamCall : Nat
  RoamSMS : Nat
  Dur : ℚ
  Days : List String
  Cells : List String
  Imeis : List String
  Imsis : List String
  First : String
  Last : String

/-- Insert a key into a set kept as a duplicate-free list. -/
def setInsert (s : List String) (x : String) : List String :=
  if x ∈ s then s else x :: s

/-- The aggregate key of an emitted row: its B Party field, with the
sentinel for a blank one. -/
def bKeyOf (row : List String) : String :=
  if rowGet row "B Party" = "" then "(blank)" else rowGet row "B Party"

/-- The date-time string used for span widening: trimmed date, a space,
trimmed time (parseDT in the sources). -/
def dtOf (row : List String) : String :=
  goTrim (rowGet row "Date") ++ " " ++ goTrim (rowGet row "Time")

/-- A freshly created aggregate: identification fields are captured from the
creating row, every counter and set starts empty (the agg literal built on
first sighting of a key). -/
def initAgg (bKey : String) (row : List String) : PartyAgg :=
  { BParty := bKey
    Provider := rowGet row "B Party Provider"
    SDR := rowGet row "B Party Operator"
    Typ := rowGet row "Type"
    Total := 0, Out := 0, In := 0, OutSMS := 0, InSMS := 0, Other := 0
    RoamCall := 0, RoamSMS := 0
    Dur := 0
    Days := [], Cells := [], Imeis := [], Imsis := []
    First := "", Last := "" }

/-- One aggregate update for one emitted row (the per-row summary block of
normalizeAirtel, lines 267 to 287, identical in the jio and vi variants up
to call-type spellings): bump the total and exactly one direction counter,
bump a roaming counter when roaming is non-empty, add the parsed duration
with an unparsable one contributing nothing, extend the distinct sets, and
widen the first/last span by Go string comparison of the date-time string. -/
def bump (a : PartyAgg) (row : List String) : PartyAgg :=
  let ct := rowGet row "Call Type"
  let a1 := { a with Total := a.Total + 1 }
  let a2 :=
    if ct = "CALL_OUT" then { a1 with Out := a1.Out + 1 }
    else if ct = "CALL_IN" then { a1 with In := a1.In + 1 }
    else if containsSub ct "SMS" then
      (if hasSuffixGo ct "OUT" then { a1 with OutSMS := a1.OutSMS + 1 }
       else { a1 with InSMS := a1.InSMS + 1 })
    else { a1 with Other := a1.Other + 1 }
  let a3 :=
    if rowGet row "Roaming" ≠ "" then
      (if containsSub ct "SMS" then { a2 with RoamSMS := a2.RoamSMS + 1 }
       else { a2 with RoamCall := a2.RoamCall + 1 })
    else a2
  let a4 :=
    match parseFloatQ (rowGet row "Duration") with
    | some d => { a3 with Dur := a3.Dur + d }
    | none => a3
  let a5 := { a4 with Days := setInsert a4.Days (rowGet row "Date") }
  let a6 :=
    if rowGet row "First Cell ID" ≠ "" then
      { a5 with Cells := setInsert a5.Cells (rowGet row "First Cell ID") }
    else a5
  let a7 :=
    if rowGet row "Last Cell ID" ≠ "" then
      { a6 with Cells := setInsert a6.Cells (rowGet row "Last Cell ID") }
    else a6
  let a8 :=
    if rowGet row "IMEI" ≠ "" then { a7 with Imeis := setInsert a7.Imeis (rowGet row "IMEI") }
    else a7
  let a9 :=
    if rowGet row "IMSI" ≠ "" then { a8 with Imsis := setInsert a8.Imsis (rowGet row "IMSI") }
    else a8
  let dt := dtOf row
  let a10 := if a9.First = "" || strLt dt a9.First then { a9 with First := dt } else a9
  if a10.Last = "" || strLt a10.Last dt then { a10 with Last := dt } else a10

/-- Fold one emitted row into the per-party aggregate map: fetch or create
the aggregate of the key, update it, store it back. -/
def aggStep (m : String → Option PartyAgg) (row : List String) : String → Option PartyAgg :=
  let bKey := bKeyOf row
  let a0 := match m bKey with
    | some a => a
    | none => initAgg bKey row
  let a1 := bump a0 row
  fun k => if k = bKey then some a1 else m k

/-- The aggregate map at end of run: every emitted row folded in order into
an initially empty map. -/
def aggregateRows (rows : List (List String)) : String → Option PartyAgg :=
  rows.foldl aggStep (fun _ => none)

/-- The view of one aggregation step at a fixed key k, applied to the rows
whose key is k: fetch or create the aggregate, then update it. -/
def stepKey (k : String) (o : Option PartyAgg) (r : List String) : Option PartyAgg :=
  some (bump (o.getD (initAgg k r)) r)

/-- Total-call count of a key, zero when the key never occurred. -/
def totalOf (o : Option PartyAgg) : Nat :=
  match o with
  | some a => a.Total
  | none => 0

/-- Sum of the five direction counters of a key. -/
def dirSumOf (o : Option PartyAgg) : Nat :=
  match o with
  | some a => a.Out + a.In + a.OutSMS + a.InSMS + a.Other
  | none => 0

/-- Total duration of a key, zero when the key never occurred. -/
def durOf (o : Option PartyAgg) : ℚ :=
  match o with
  | some a => a.Dur
  | none => 0

/-- Earliest date-time of a key (empty when the key never occurred). -/
def firstOf (o : Option PartyAgg) : String :=
  match o with
  | some a => a.First
  | none => ""

/-- Latest date-time of a key (empty when the key never occurred). -/
def lastOf (o : Option PartyAgg) : String :=
  match o with
  | some a => a.Last
  | none => ""

/-- The duration contribution of one emitted row: its parsed Duration field,
zero when unparsable. -/
def durTerm (row : List String) : ℚ := (parseFloatQ (rowGet row "Duration")).getD 0

/- ─────── bsnl identifier resolution (bsnl/bsnl_filter.go, normBSNL) ────── -/

namespace Bsnl

/-- Leftmost-position matcher for the banner regex (case-insensitive:
search, optional whitespace, value, any non-digits, then eight to fifteen
captured digits). -/
def searchValAt (cs : List Char) : Option (List Char) :=
  match stripCI "search".data cs with
  | none => none
  | some r1 =>
    let r2 := r1.dropWhile isSpaceRE
    match stripCI "value".data r2 with
    | none => none
    | some r3 =>
      let r4 := r3.dropWhile (fun c => !c.isDigit)
      let ds := r4.takeWhile Char.isDigit
      if 8 ≤ ds.length then some (ds.take 15) else none

/-- extractCDR of the bsnl variant: banner-regex capture over a line, empty
when there is no match. -/
def extractCDR (s : String) : String :=
  match Airtel.scanTails searchValAt s.data with
  | some ds => ⟨ds⟩
  | none => ""

/-- Does a record contain a call_date column (the bsnl header signature). -/
def isHeaderB (rec : List String) : Bool := rec.any (fun h => normGo h = "call_date")

/-- colIdxAny of the bsnl variant: the first header index whose normalized
name equals the normalization of one of the candidate keys, tried in
candidate order. -/
def colIdxAnyB (header : List String) (keys : List String) : Option Nat :=
  keys.findSome? (fun k =>
    (List.range header.length).find? (fun i => normGo (header.getD i "") = normGo k))

/-- Header-locating loop of normBSNL: scan records, remember the first
non-empty banner extraction over the space-joined record, stop at the first
record containing a call_date column. -/
def locateBSNL : List (List String) → String → Option (String × List String × List (List String))
  | [], _ => none
  | rec :: rest, cdr =>
    let cdr1 := if cdr = "" then extractCDR (joinSpace rec) else cdr
    if isHeaderB rec then some (cdr1, rec, rest) else locateBSNL rest cdr1

/-- The identifier-column fallback of normBSNL: the digits of the search
value column of the first data record, when that column exists and the
record is wide enough. -/
def idColB (header firstData : List String) : String :=
  match colIdxAnyB header ["search value"] with
  | some idx => if idx < firstData.length then digitsStr (firstData.getD idx "") else ""
  | none => ""

/-- The identifier-resolution part of normBSNL (lines 136 to 153): locate
the header while scanning banners, require a first data record, then fall
back to the identifier column and finally to the digits of the source file
name; abort when everything is empty. -/
def resolveBSNL (input : List (List String)) (src : String) : Except String String :=
  match locateBSNL input "" with
  | none => .error "no header"
  | some (cdr0, header, rest) =>
    match rest with
    | [] => .error "no data rows"
    | firstData :: _ =>
      let cdr1 := if cdr0 = "" then idColB header firstData else cdr0
      let cdr2 := if cdr1 = "" then digitsStr (baseName src) else cdr1
      if cdr2 = "" then .error "cannot determine CDR" else .ok cdr2

/-- Claim-level banner step: the first non-empty banner extraction over the
records scanned by the locating loop (everything before the header record,
plus the header record itself). -/
def bannerB (input : List (List String)) : String :=
  match
    (input.takeWhile (fun r => !isHeaderB r) ++
      (input.dropWhile (fun r => !isHeaderB r)).take 1).findSome?
      (fun rec => let e := extractCDR (joinSpace rec); if e = "" then none else some e)
  with
  | some v => v
  | none => ""

/-- First non-empty string of a fallback chain, empty when all fail. -/
def firstNonempty (l : List String) : String :=
  match l.find? (· ≠ "") with
  | some v => v
  | none => ""

end Bsnl

/- ──────── jio cell lookup, enrichment, B-party (jio/jio_filter.go) ─────── -/

namespace Jio

/-- Cell reference entry of the jio variant. -/
structure CellInfo where
  Addr : String
  Sub : String
  Main : String
  LatLonAz : String
deriving DecidableEq

/-- cleanCGI of the jio variant: digits only. -/
def cleanCGI (s : String) : String := digitsStr s

/-- Point update of a cell map (one Go map assignment). -/
def dbUpd (db : String → Option CellInfo) (k : String) (v : CellInfo) :
    String → Option CellInfo :=
  fun x => if x = k then some v else db x

/-- The row loop of loadCells: for each reference row, trim the raw cell
identifier, skip it when empty, and store its info under both the raw and
the digits-only key. -/
def loadCells (rows : List (String × CellInfo)) : String → Option CellInfo :=
  rows.foldl
    (fun db p =>
      let rawID := goTrim p.1
      if rawID = "" then db
      else dbUpd (dbUpd db rawID p.2) (cleanCGI rawID) p.2)
    (fun _ => none)

/-- First count characters of a string (Go slicing id up to l on the ASCII
identifiers handled here). -/
def strTake (s : String) (n : Nat) : String := ⟨s.data.take n⟩

/-- The truncation probes of findCell: every strict-prefix length from one
below the identifier length down to eleven, in that order. -/
def descLens (n : Nat) : List Nat := ((List.range n).filter (fun l => 11 ≤ l)).reverse

/-- findCell of jio/jio_filter.go (lines 211 to 230): exact lookup, then
progressively shorter prefixes down to length eleven, then the identifier
with a leading zero added, then with a leading zero removed. -/
def findCell (db : String → Option CellInfo) (id : String) : Option CellInfo :=
  match db id with
  | some info => some info
  | none =>
    match (descLens id.length).findSome? (fun l => db (strTake id l)) with
    | some info => some info
    | none =>
      match db ("0" ++ id) with
      | some info => some info
      | none =>
        if id.data.head? = some '0' then db ⟨id.data.drop 1⟩ else none

/-- enrich of jio/jio_filter.go (lines 279 to 290): on a hit the first cell
identifier receives address, sub-city, main-city and the geo triple while
the last cell identifier receives the address only; on a miss the row is
unchanged. -/
def enrich (db : String → Option CellInfo) (row : List String) (id : String)
    (first : Bool) : List String :=
  match findCell db id with
  | none => row
  | some info =>
    if first then
      ((((row.set (colT "First Cell ID Address") info.Addr).set
          (colT "Sub City (First CellID)") info.Sub).set
          (colT "Main City(First CellID)") info.Main).set
          (colT "Lat-Long-Azimuth (First CellID)") info.LatLonAz)
    else row.set (colT "Last Cell ID Address") info.Addr

/-- normalizeMSISDN: digits only, keeping the last ten so a prefixed number
matches a ten-digit CDR identifier. -/
def normalizeMSISDN (s : String) : String :=
  let d := digitsStr s
  if d.length > 10 then ⟨d.data.drop (d.data.length - 10)⟩ else d

/-- The B-party selection of normJio (lines 417 to 440), taking the already
quote-trimmed calling and called fields: prefer the side whose trailing
digits do not equal the run identifier, then fall back to the first
non-empty raw field. -/
def selectBParty (cdr callRaw calledRaw : String) : String :=
  let cdrD := normalizeMSISDN cdr
  let callD := normalizeMSISDN callRaw
  let calledD := normalizeMSISDN calledRaw
  if callD = cdrD ∧ calledRaw ≠ "" then calledRaw
  else if calledD = cdrD ∧ callRaw ≠ "" then callRaw
  else if callD ≠ "" ∧ callD ≠ cdrD then callRaw
  else if calledD ≠ "" ∧ calledD ≠ cdrD then calledRaw
  else if callRaw ≠ "" then callRaw
  else calledRaw

end Jio

/- ───────────── vi ranked report and summary (vi/vi_filter.go) ──────────── -/

namespace Vi

/-- Insertion step of the ranked-by-call-count sort: place the new entry
before the first entry with strictly fewer total calls (one sorted order
consistent with the sort.Slice comparison on TotalCalls, descending). -/
def insertByCalls (x : String × PartyAgg) :
    List (String × PartyAgg) → List (String × PartyAgg)
  | [] => [x]
  | y :: ys => if y.2.Total < x.2.Total then x :: y :: ys else y :: insertByCalls x ys

/-- The parties sorted by total calls, descending (the sort.Slice call of
normVI before the max-calls report is written). -/
def sortByCallsDesc (l : List (String × PartyAgg)) : List (String × PartyAgg) :=
  l.foldr insertByCalls []

/-- The ranked body of the max-calls report: one row per party in descending
call-count order, with the provider defaulted to Unknown. -/
def maxCallsRanked (cdr : String) (l : List (String × PartyAgg)) : List (List String) :=
  (sortByCallsDesc l).map (fun kv =>
    [cdr, kv.1, "", toString kv.2.Total,
     if kv.2.Provider = "" then "Unknown" else kv.2.Provider])

/-- Round a rational to the nearest integer, ties to even (the rounding of
the percent-dot-zero-f verb on the exactly represented aggregate). -/
def roundHalfEven (q : ℚ) : Int :=
  let n := ⌊q⌋
  let f := q - (n : ℚ)
  if f < 1 / 2 then n
  else if 1 / 2 < f then n + 1
  else if n % 2 = 0 then n else n + 1

/-- Total duration formatted with zero decimals. -/
def fmtF0 (q : ℚ) : String := toString (roundHalfEven q)

/-- The summary header row written by normVI. -/
def summaryHeader : List String :=
  ["CdrNo", "B Party", "B Party SDR", "Provider", "Type",
   "Total Calls", "Out Calls", "In Calls", "Out Sms", "In Sms",
   "Other Calls", "Roam Calls", "Roam Sms", "Total Duration",
   "Total Days", "Total CellIds", "Total Imei", "Total Imsi",
   "First Call", "Last Call"]

/-- One summary row for one party aggregate (the sw.Write call of normVI,
lines 443 to 452). -/
def summaryRow (cdr : String) (a : PartyAgg) : List String :=
  [cdr, a.BParty, a.SDR, a.Provider, a.Typ,
   toString a.Total, toString a.Out, toString a.In,
   toString a.OutSMS, toString a.InSMS, toString a.Other,
   toString a.RoamCall, toString a.RoamSMS,
   fmtF0 a.Dur,
   toString a.Days.length, toString a.Cells.length,
   toString a.Imeis.length, toString a.Imsis.length,
   a.First, a.Last]

/-- The summary file as written by one run: the header row, then one row per
party in the order the Go runtime happens to enumerate the summary map.
That enumeration order is the run-dependent input of this function. -/
def summaryFileRows (cdr : String) (enum : List PartyAgg) : List (List String) :=
  summaryHeader :: enum.map (summaryRow cdr)

end Vi

/- ───── bsnl workbook day-span (unnamed part_000, processBSNL max_stay) ─── -/

namespace BsnlX

/-- Gregorian leap-year predicate (proleptic, as used by Go time). -/
def isLeap (y : Nat) : Bool := y % 4 = 0 && (y % 100 ≠ 0 || y % 400 = 0)

/-- Cumulative days before each month in a non-leap year. -/
def cumMonth : List Nat := [0, 31, 59, 90, 120, 151, 181, 212, 243, 273, 304, 334]

/-- Length of a month. -/
def daysInMonth (y m : Nat) : Nat :=
  [31, if isLeap y then 29 else 28, 31, 30, 31, 30, 31, 31, 30, 31, 30, 31].getD (m - 1) 31

/-- Day number of a civil date, with day zero at 0001-01-01 (the zero Go
time).  Only differences of day numbers are used, matching Go proleptic
Gregorian time arithmetic. -/
def dayNumber (y m d : Nat) : Int :=
  365 * ((y : Int) - 1) + Int.fdiv ((y : Int) - 1) 4 - Int.fdiv ((y : Int) - 1) 100 +
    Int.fdiv ((y : Int) - 1) 400 +
    (cumMonth.getD (m - 1) 0 : Int) + (if isLeap y ∧ 2 < m then 1 else 0) + ((d : Int) - 1)

/-- Numeric value of a digit character. -/
def digitVal (c : Char) : Nat := c.toNat - 48

/-- time.Parse with layout 2006-01-02: exactly four year digits, a dash, two
month digits, a dash, two day digits, with the month and day range-checked.
Returns the calendar triple. -/
def parseDateGo (s : String) : Option (Nat × Nat × Nat) :=
  match s.data with
  | [y1, y2, y3, y4, s1, m1, m2, s2, d1, d2] =>
    if (y1.isDigit && y2.isDigit && y3.isDigit && y4.isDigit &&
        (s1 = '-') && m1.isDigit && m2.isDigit && (s2 = '-') &&
        d1.isDigit && d2.isDigit) then
      let y := 1000 * digitVal y1 + 100 * digitVal y2 + 10 * digitVal y3 + digitVal y4
      let m := 10 * digitVal m1 + digitVal m2
      let d := 10 * digitVal d1 + digitVal d2
      if 1 ≤ m ∧ m ≤ 12 ∧ 1 ≤ d ∧ d ≤ daysInMonth y m then some (y, m, d) else none
    else none
  | _ => none

/-- Day number of a date string; a parse failure is ignored in the source
(the error of time.Parse is discarded), leaving the zero time, day zero. -/
def dayNumOf (s : String) : Int :=
  match parseDateGo s with
  | some (y, m, d) => dayNumber y m d
  | none => 0

/-- Saturation of the Go Duration subtraction: a span whose nanosecond count
overflows int64 is clamped, and dividing the clamped extremes by hours and
twenty-four then truncating yields 106751 days in magnitude. -/
def clampDays (d : Int) : Int :=
  if 106751 < d then 106751 else if d < -106751 then -106751 else d

/-- The day-span cell of the max_stay sheet (processBSNL lines 1152 to 1158):
a dash when either boundary date is empty, otherwise the truncated
difference in days plus one, computed through the ignored-error parses. -/
def daysField (fd ld : String) : String :=
  if fd ≠ "" ∧ ld ≠ "" then toString (clampDays (dayNumOf ld - dayNumOf fd) + 1) else "-"

/-- Per-cell aggregate of the workbook bsnl variant (cellAgg). -/
structure CellAggX where
  Addr : String
  Lat : String
  Lon : String
  Az : String
  Roam : String
  Calls : Nat
  Fd : String
  Ft : String
  Ld : String
  Lt : String

/-- One body row of the max_stay sheet (processBSNL lines 1159 to 1163). -/
def maxStayRow (cdr id : String) (c : CellAggX) : List String :=
  [cdr, id, toString c.Calls, daysField c.Fd c.Ld,
   c.Addr, c.Lat, c.Lon, c.Az, c.Roam,
   c.Fd, c.Ft, c.Ld, c.Lt]

end BsnlX

/- ───────────────────────── concrete fixtures ──────────────────────────── -/

/-- A canonical row with only B Party, Date, Time and Duration populated
(columns one to four of the canonical layout). -/
def exRow (b date time dur : String) : List String :=
  (((blank26.set 1 b).set 2 date).set 3 time).set 4 dur

/-- Five emitted rows for one party with durations ten, twenty, an
unparsable entry, five and zero. -/
def exRowsDur : List (List String) :=
  [exRow "777" "" "" "10", exRow "777" "" "" "20", exRow "777" "" "" "bad",
   exRow "777" "" "" "5", exRow "777" "" "" "0"]

/-- Three emitted rows for one key with out-of-order timestamps. -/
def exRowsSpan : List (List String) :=
  [exRow "777" "2024-01-02" "10:00:00" "", exRow "777" "2024-01-01" "09:00:00" "",
   exRow "777" "2024-01-03" "08:00:00" ""]

/-- A cell reference entry used by the lookup examples. -/
def exInfo : Jio.CellInfo := ⟨"ADDR", "SUB", "MAIN", "12.9, 77.6, 120"⟩

/-- A one-entry cell table whose identifier is stored in digits-only form
(twelve digits). -/
def exDB : String → Option Jio.CellInfo := Jio.loadCells [("123456789012", exInfo)]

/-- A party aggregate for key 111 (all counters empty). -/
def aggP1 : PartyAgg :=
  { BParty := "111", Provider := "", SDR := "", Typ := ""
    Total := 1, Out := 1, In := 0, OutSMS := 0, InSMS := 0, Other := 0
    RoamCall := 0, RoamSMS := 0, Dur := 0
    Days := [], Cells := [], Imeis := [], Imsis := [], First := "", Last := "" }

/-- A party aggregate for key 222. -/
def aggP2 : PartyAgg :=
  { BParty := "222", Provider := "", SDR := "", Typ := ""
    Total := 2, Out := 0, In := 2, OutSMS := 0, InSMS := 0, Other := 0
    RoamCall := 0, RoamSMS := 0, Dur := 0
    Days := [], Cells := [], Imeis := [], Imsis := [], First := "", Last := "" }

/-- A bsnl-style input whose pre-header record carries no banner, whose
header has no identifier column, followed by one data record. -/
def exInputB : List (List String) :=
  [["hello", "world"], ["call_date", "other_party_no"], ["2024-01-01", "123"]]

/- ═══════════════════════════ theorems ═══════════════════════════════════ -/

/- ── generic helper lemmas ── -/

theorem getD_set_self (l : List String) (i : Nat) (a : String) (h : i < l.length) :
    (l.set i a).getD i "" = a := by
  simp [List.getD_eq_getElem?_getD, List.getElem?_set_self', List.getElem?_eq_getElem h]

theorem getD_set_of_ne (l : List String) (i j : Nat) (a : String) (h : i ≠ j) :
    (l.set i a).getD j "" = l.getD j "" := by
  simp [List.getD_eq_getElem?_getD, List.getElem?_set_ne h]

theorem mem_dropWhile_of_prop {p : Char → Bool} {c : Char} :
    ∀ {cs : List Char}, c ∈ cs → p c = false → c ∈ cs.dropWhile p
  | [], h, _ => absurd h (List.not_mem_nil c)
  | a :: cs, h, hp => by
    by_cases ha : p a = true
    · rw [List.dropWhile_cons_of_pos ha]
      rcases List.mem_cons.mp h with h1 | h2
      · subst h1; rw [hp] at ha; cases ha
      · exact mem_dropWhile_of_prop h2 hp
    · rw [List.dropWhile_cons_of_neg ha]; exact h

theorem mem_trimCharList {c : Char} {cs : List Char} (h : c ∈ cs)
    (hp : isSpaceGo c = false) : c ∈ trimCharList cs := by
  unfold trimCharList
  rw [List.mem_reverse]
  apply mem_dropWhile_of_prop _ hp
  rw [List.mem_reverse]
  exact mem_dropWhile_of_prop h hp

theorem mem_collapseGo {c : Char} (hc : isSpaceRE c = false) :
    ∀ {cs : List Char} {b : Bool}, c ∈ cs → c ∈ collapseGo b cs
  | [], _, h => absurd h (List.not_mem_nil c)
  | a :: cs, b, h => by
    rcases List.mem_cons.mp h with h1 | h2
    · subst h1
      unfold collapseGo
      rw [hc]
      exact List.mem_cons_self c _
    · unfold collapseGo
      by_cases ha : isSpaceRE a = true
      · rw [ha]
        simp only [if_true]
        exact List.mem_append_right _ (mem_collapseGo hc h2)
      · rw [Bool.of_not_eq_true ha]
        exact List.mem_cons_of_mem a (mem_collapseGo hc h2)

/-- A non-whitespace character of a string survives, lowercased, into its
normalization. -/
theorem mem_normGo {c : Char} {s : String} (h : c ∈ s.data)
    (h1 : isSpaceGo c = false) (h2 : isSpaceRE (Char.toLower c) = false) :
    Char.toLower c ∈ (normGo s).data := by
  unfold normGo
  exact mem_collapseGo h2 (List.mem_map_of_mem Char.toLower (mem_trimCharList h h1))

theorem containsSub_mem {s pat : String} (h : containsSub s pat = true) {c : Char}
    (hc : c ∈ pat.data) : c ∈ s.data := by
  unfold containsSub at h
  exact (of_decide_eq_true h).subset hc

/- ── lexicographic order lemmas ── -/

theorem lexLt_nil (cs : List Char) : lexLt cs [] = false := by cases cs <;> rfl

theorem lexLt_cons (a b : Char) (as bs : List Char) :
    lexLt (a :: as) (b :: bs) =
      (if a.toNat < b.toNat then true else if b.toNat < a.toNat then false else lexLt as bs) :=
  rfl

theorem lexLt_irrefl : ∀ cs : List Char, lexLt cs cs = false
  | [] => rfl
  | c :: cs => by
    rw [lexLt_cons]
    simp [lexLt_irrefl cs]

theorem lexLt_trans {a : List Char} : ∀ {b c : List Char},
    lexLt a b = true → lexLt b c = true → lexLt a c = true := by
  induction a with
  | nil =>
    intro b c hab hbc
    cases b with
    | nil => cases hab
    | cons y bs =>
      cases c with
      | nil => rw [lexLt_nil] at hbc; cases hbc
      | cons z cs => rfl
  | cons x as ih =>
    intro b c hab hbc
    cases b with
    | nil => rw [lexLt_nil] at hab; cases hab
    | cons y bs =>
      cases c with
      | nil => rw [lexLt_nil] at hbc; cases hbc
      | cons z cs =>
        rw [lexLt_cons] at hab hbc ⊢
        by_cases h1 : x.toNat < y.toNat <;> by_cases h2 : y.toNat < z.toNat
        · rw [if_pos (Nat.lt_trans h1 h2)]
        · rw [if_neg h2] at hbc
          by_cases h3 : z.toNat < y.toNat
          · rw [if_pos h3] at hbc; cases hbc
          · have hyz : y.toNat = z.toNat :=
              Nat.le_antisymm (Nat.le_of_not_lt h3) (Nat.le_of_not_lt h2)
            rw [if_pos (hyz ▸ h1)]
        · rw [if_neg h1] at hab
          by_cases h3 : y.toNat < x.toNat
          · rw [if_pos h3] at hab; cases hab
          · have hxy : x.toNat = y.toNat :=
              Nat.le_antisymm (Nat.le_of_not_lt h3) (Nat.le_of_not_lt h1)
            rw [if_pos (hxy ▸ h2)]
        · rw [if_neg h1] at hab
          rw [if_neg h2] at hbc
          by_cases h3 : y.toNat < x.toNat
          · rw [if_pos h3] at hab; cases hab
          · by_cases h4 : z.toNat < y.toNat
            · rw [if_pos h4] at hbc; cases hbc
            · rw [if_neg h3] at hab
              rw [if_neg h4] at hbc
              have hxy : x.toNat = y.toNat :=
                Nat.le_antisymm (Nat.le_of_not_lt h3) (Nat.le_of_not_lt h1)
              have hyz : y.toNat = z.toNat :=
                Nat.le_antisymm (Nat.le_of_not_lt h4) (Nat.le_of_not_lt h2)
              rw [if_neg (by omega : ¬ x.toNat < z.toNat),
                if_neg (by omega : ¬ z.toNat < x.toNat)]
              exact ih hab hbc

theorem lexLt_connex {a : List Char} : ∀ {b : List Char},
    lexLt a b = false → lexLt b a = true ∨ a = b := by
  induction a with
  | nil =>
    intro b h
    cases b with
    | nil => exact Or.inr rfl
    | cons y bs => cases h
  | cons x as ih =>
    intro b h
    cases b with
    | nil => exact Or.inl rfl
    | cons y bs =>
      rw [lexLt_cons] at h
      by_cases h1 : x.toNat < y.toNat
      · rw [if_pos h1] at h; cases h
      · by_cases h2 : y.toNat < x.toNat
        · rw [lexLt_cons, if_pos h2]
          exact Or.inl rfl
        · have hxy : x = y := by
            apply Char.eq_of_val_eq
            exact UInt32.toNat.inj
              (Nat.le_antisymm (Nat.le_of_not_lt h2) (Nat.le_of_not_lt h1))
          rw [if_neg h1, if_neg h2] at h
          rcases ih h with h3 | h3
          · rw [lexLt_cons, if_neg h2, if_neg h1]
            exact Or.inl h3
          · exact Or.inr (by rw [hxy, h3])

theorem strLt_irrefl (s : String) : strLt s s = false := lexLt_irrefl s.data

theorem strLt_trans {a b c : String} (h1 : strLt a b = true) (h2 : strLt b c = true) :
    strLt a c = true := lexLt_trans h1 h2

theorem strLt_connex {a b : String} (h : strLt a b = false) : strLt b a = true ∨ a = b := by
  rcases lexLt_connex h with h1 | h1
  · exact Or.inl h1
  · exact Or.inr (congrArg String.mk h1)

/-- Transitivity of the complement of the strict order. -/
theorem strLt_not_trans {a b c : String} (h1 : strLt a b = false) (h2 : strLt b c = false) :
    strLt a c = false := by
  by_contra hac
  replace hac : strLt a c = true := by
    cases h : strLt a c
    · exact absurd h hac
    · rfl
  rcases strLt_connex h2 with h3 | h3
  · have : strLt a b = true := strLt_trans hac h3
    rw [this] at h1; cases h1
  · subst h3
    rw [hac] at h1; cases h1

/- ── C9: day-span field of the cell-ranked report ── -/

/-- A parsable date string is non-empty. -/
theorem parseDateGo_ne_empty {s : String} {t : Nat × Nat × Nat}
    (h : BsnlX.parseDateGo s = some t) : s ≠ "" := by
  intro hs
  subst hs
  simp [BsnlX.parseDateGo] at h

/-- C9 counterexample: two non-empty unparsable boundary dates make the
day-span field the number one (the ignored parse errors leave both at the
zero time), not the sentinel unknown claimed by the specification. -/
theorem C9_counterexample :
    BsnlX.daysField "bad" "bad" = "1" ∧ ("1" : String) ≠ "unknown" := by
  constructor
  · decide
  · decide

/-- C9 amended: the max_stay sheet carries, for every cell, a day-span field
between the earliest and latest dates; the field is the dash sentinel
exactly when a boundary date is empty, and two parsable dates give the
inclusive clamped difference in days; an unparsable non-empty date never
raises an error but is silently treated as the zero time. -/
theorem C9_day_span :
    (∀ fd ld : String, fd = "" ∨ ld = "" → BsnlX.daysField fd ld = "-") ∧
    (∀ (fd ld : String) (yf mf df yl ml dl : Nat),
      BsnlX.parseDateGo fd = some (yf, mf, df) →
      BsnlX.parseDateGo ld = some (yl, ml, dl) →
      BsnlX.daysField fd ld =
        toString (BsnlX.clampDays
          (BsnlX.dayNumber yl ml dl - BsnlX.dayNumber yf mf df) + 1)) ∧
    (∀ (cdr id : String) (c : BsnlX.CellAggX),
      (BsnlX.maxStayRow cdr id c).getD 3 "" = BsnlX.daysField c.Fd c.Ld) := by
  refine ⟨?_, ?_, ?_⟩
  · intro fd ld h
    unfold BsnlX.daysField
    rcases h with h | h <;> simp [h]
  · intro fd ld yf mf df yl ml dl hf hl
    unfold BsnlX.daysField
    rw [if_pos ⟨parseDateGo_ne_empty hf, parseDateGo_ne_empty hl⟩]
    unfold BsnlX.dayNumOf
    rw [hf, hl]
  · intro cdr id c
    rfl

/-- C9 witness: two concrete parsable dates two days apart give the
inclusive span three. -/
theorem C9_day_span_witness :
    BsnlX.daysField "2024-01-01" "2024-01-03" =
      toString (BsnlX.clampDays
        (BsnlX.dayNumber 2024 1 3 - BsnlX.dayNumber 2024 1 1) + 1) ∧
    BsnlX.daysField "2024-01-01" "2024-01-03" = "3" :=
  ⟨C9_day_span.2.1 "2024-01-01" "2024-01-03" 2024 1 1 2024 1 3 (by decide) (by decide),
   by decide⟩

/- ── C6: correspondent-party selection ── -/

/-- C6 counterexample: with both numbers present and neither matching the
run identifier, the jio selection takes the calling field, not the called
field that the specification says is preferred in the ambiguous case. -/
theorem C6_counterexample :
    Jio.selectBParty "9999999999" "1111111111" "2222222222" = "1111111111" ∧
    ("1111111111" : String) ≠ "2222222222" :=
  ⟨by decide, by decide⟩

/-- C6 amended: with both the calling and called fields present, whichever
side matches the run identifier on trailing significant digits yields the
other side; when both match, the called field is preferred; when neither
matches, the calling field is preferred as long as its digit form is
non-empty, the called field is used when only its digit form is non-empty
and differs from the identifier, and when both digit forms are empty while
that of the identifier is not, the first non-empty raw field (calling) wins. -/
theorem C6_bparty_selection (cdr call called : String)
    (hcall : call ≠ "") (hcalled : called ≠ "") :
    (Jio.normalizeMSISDN call = Jio.normalizeMSISDN cdr →
      Jio.selectBParty cdr call called = called) ∧
    (Jio.normalizeMSISDN call ≠ Jio.normalizeMSISDN cdr →
      Jio.normalizeMSISDN called = Jio.normalizeMSISDN cdr →
      Jio.selectBParty cdr call called = call) ∧
    (Jio.normalizeMSISDN call ≠ Jio.normalizeMSISDN cdr →
      Jio.normalizeMSISDN called ≠ Jio.normalizeMSISDN cdr →
      Jio.normalizeMSISDN call ≠ "" →
      Jio.selectBParty cdr call called = call) ∧
    (Jio.normalizeMSISDN call = "" →
      Jio.normalizeMSISDN called ≠ "" →
      Jio.normalizeMSISDN call ≠ Jio.normalizeMSISDN cdr →
      Jio.normalizeMSISDN called ≠ Jio.normalizeMSISDN cdr →
      Jio.selectBParty cdr call called = called) ∧
    (Jio.normalizeMSISDN call = "" →
      Jio.normalizeMSISDN called = "" →
      Jio.normalizeMSISDN cdr ≠ "" →
      Jio.selectBParty cdr call called = call) := by
  unfold Jio.selectBParty
  refine ⟨?_, ?_, ?_, ?_, ?_⟩
  · intro h
    rw [if_pos ⟨h, hcalled⟩]
  · intro h1 h2
    rw [if_neg (fun hc => h1 hc.1), if_pos ⟨h2, hcall⟩]
  · intro h1 h2 h3
    rw [if_neg (fun hc => h1 hc.1), if_neg (fun hc => h2 hc.1), if_pos ⟨h3, h1⟩]
  · intro h1 h2 h3 h4
    rw [if_neg (fun hc => h3 hc.1), if_neg (fun hc => h4 hc.1),
      if_neg (fun hc => hc.1 h1), if_pos ⟨h2, h4⟩]
  · intro h1 h2 h3
    rw [if_neg (fun hc => h3 (h1 ▸ hc.1.symm)), if_neg (fun hc => h3 (h2 ▸ hc.1.symm)),
      if_neg (fun hc => hc.1 h1), if_neg (fun hc => hc.1 h2), if_pos hcall]

/-- C6 witness: the calling side carries the identifier with a country
prefix, so the called side is selected. -/
theorem C6_bparty_selection_witness :
    Jio.selectBParty "9876543210" "+91 98765 43210" "1234567890" = "1234567890" :=
  (C6_bparty_selection "9876543210" "+91 98765 43210" "1234567890"
    (by decide) (by decide)).1 (by decide)

/- ── C5: cell lookup and enrichment ── -/

/-- C5 counterexample: a cell identifier stored in the reference table in
digits-only form is missed by findCell when queried with the separator-ful
raw identifier, although a digits-only second probe, as the specification
describes the lookup, would hit it; so the lookup itself is not exact-raw
then digits-only, and the raw and separator-ful spellings do not enrich
identically at the lookup level. -/
theorem C5_counterexample :
    exDB (digitsStr "12-34-56-78-90-12") = some exInfo ∧
    Jio.findCell exDB "12-34-56-78-90-12" = none :=
  ⟨by decide, by decide⟩

/-- C5 amended: the jio lookup probes the exact identifier first and then
truncated prefixes and zero-padded variants, not a digits-only form; the
pipeline nevertheless behaves separator-insensitively because it strips
every non-digit from the cell identifier of the row before the lookup, and the
table is keyed under both the raw and the digits-only spelling, so a table
entry is found from any separator variant of its identifier; on a hit the
first cell identifier receives address, sub-city, main-city and the geo
triple while the last cell identifier receives the address only, and on a
miss the row is unchanged. -/
theorem C5_cell_lookup :
    (∀ (db : String → Option Jio.CellInfo) (a b : String),
      digitsStr a = digitsStr b →
      Jio.findCell db (Jio.cleanCGI a) = Jio.findCell db (Jio.cleanCGI b)) ∧
    (∀ (raw : String) (info : Jio.CellInfo) (a : String),
      goTrim raw = raw → raw ≠ "" → digitsStr a = digitsStr raw →
      Jio.findCell (Jio.loadCells [(raw, info)]) (Jio.cleanCGI a) = some info) ∧
    (∀ (db : String → Option Jio.CellInfo) (row : List String) (id : String),
      Jio.findCell db id = none →
      Jio.enrich db row id true = row ∧ Jio.enrich db row id false = row) ∧
    (∀ (db : String → Option Jio.CellInfo) (row : List String) (id : String)
        (info : Jio.CellInfo), row.length = 26 → Jio.findCell db id = some info →
      rowGet (Jio.enrich db row id true) "First Cell ID Address" = info.Addr ∧
      rowGet (Jio.enrich db row id true) "Sub City (First CellID)" = info.Sub ∧
      rowGet (Jio.enrich db row id true) "Main City(First CellID)" = info.Main ∧
      rowGet (Jio.enrich db row id true) "Lat-Long-Azimuth (First CellID)" = info.LatLonAz ∧
      rowGet (Jio.enrich db row id false) "Last Cell ID Address" = info.Addr ∧
      (∀ j, j ≠ 7 → j ≠ 14 → j ≠ 13 → j ≠ 15 →
        (Jio.enrich db row id true).getD j "" = row.getD j "") ∧
      (∀ j, j ≠ 9 → (Jio.enrich db row id false).getD j "" = row.getD j "")) := by
  refine ⟨?_, ?_, ?_, ?_⟩
  · intro db a b h
    unfold Jio.cleanCGI
    rw [h]
  · intro raw info a htrim hne h
    unfold Jio.cleanCGI
    rw [h]
    unfold Jio.loadCells
    simp only [List.foldl_cons, List.foldl_nil, htrim, if_neg hne]
    unfold Jio.findCell Jio.dbUpd Jio.cleanCGI
    simp
  · intro db row id h
    unfold Jio.enrich
    rw [h]
    exact ⟨rfl, rfl⟩
  · intro db row id info hlen h
    have c7 : colT "First Cell ID Address" = 7 := by decide
    have c14 : colT "Sub City (First CellID)" = 14 := by decide
    have c13 : colT "Main City(First CellID)" = 13 := by decide
    have c15 : colT "Lat-Long-Azimuth (First CellID)" = 15 := by decide
    have c9 : colT "Last Cell ID Address" = 9 := by decide
    have e1 : Jio.enrich db row id true =
        (((row.set 7 info.Addr).set 14 info.Sub).set 13 info.Main).set 15 info.LatLonAz := by
      unfold Jio.enrich
      rw [h]
      simp [c7, c14, c13, c15]
    have e2 : Jio.enrich db row id false = row.set 9 info.Addr := by
      unfold Jio.enrich
      rw [h]
      simp [c9]
    rw [e1, e2]
    unfold rowGet
    rw [c7, c14, c13, c15, c9]
    refine ⟨?_, ?_, ?_, ?_, ?_, ?_, ?_⟩
    · rw [getD_set_of_ne _ 15 7 _ (by omega), getD_set_of_ne _ 13 7 _ (by omega),
        getD_set_of_ne _ 14 7 _ (by omega), getD_set_self _ 7 _ (by omega)]
    · rw [getD_set_of_ne _ 15 14 _ (by omega), getD_set_of_ne _ 13 14 _ (by omega),
        getD_set_self _ 14 _ (by simp [hlen])]
    · rw [getD_set_of_ne _ 15 13 _ (by omega),
        getD_set_self _ 13 _ (by simp [hlen])]
    · rw [getD_set_self _ 15 _ (by simp [hlen])]
    · rw [getD_set_self _ 9 _ (by omega)]
    · intro j h7 h14 h13 h15
      rw [getD_set_of_ne _ 15 j _ (fun hj => h15 hj.symm),
        getD_set_of_ne _ 13 j _ (fun hj => h13 hj.symm),
        getD_set_of_ne _ 14 j _ (fun hj => h14 hj.symm),
        getD_set_of_ne _ 7 j _ (fun hj => h7 hj.symm)]
    · intro j h9
      rw [getD_set_of_ne _ 9 j _ (fun hj => h9 hj.symm)]

/-- C5 witness: once the pipeline strips the separators, the same
separator-ful identifier that the lookup alone misses does hit the
digits-only table entry. -/
theorem C5_cell_lookup_witness :
    Jio.findCell (Jio.loadCells [("123456789012", exInfo)])
      (Jio.cleanCGI "12-34-56-78-90-12") = some exInfo :=
  C5_cell_lookup.2.1 "123456789012" exInfo "12-34-56-78-90-12"
    (by decide) (by decide) (by decide)

/- ── C7: ranked-by-call-count monotonicity ── -/

theorem mem_insertByCalls {x y : String × PartyAgg} :
    ∀ {l : List (String × PartyAgg)}, y ∈ Vi.insertByCalls x l → y = x ∨ y ∈ l
  | [], h => by
    unfold Vi.insertByCalls at h
    rcases List.mem_singleton.mp h with h1
    exact Or.inl h1
  | z :: l, h => by
    unfold Vi.insertByCalls at h
    by_cases hc : z.2.Total < x.2.Total
    · rw [if_pos hc] at h
      rcases List.mem_cons.mp h with h1 | h2
      · exact Or.inl h1
      · exact Or.inr h2
    · rw [if_neg hc] at h
      rcases List.mem_cons.mp h with h1 | h2
      · exact Or.inr (h1 ▸ List.mem_cons_self z l)
      · rcases mem_insertByCalls h2 with h3 | h3
        · exact Or.inl h3
        · exact Or.inr (List.mem_cons_of_mem z h3)

theorem pairwise_insertByCalls {x : String × PartyAgg} :
    ∀ {l : List (String × PartyAgg)},
      List.Pairwise (fun a b => b.2.Total ≤ a.2.Total) l →
      List.Pairwise (fun a b => b.2.Total ≤ a.2.Total) (Vi.insertByCalls x l)
  | [], _ => by
    unfold Vi.insertByCalls
    exact List.pairwise_singleton _ x
  | z :: l, h => by
    unfold Vi.insertByCalls
    rcases List.pairwise_cons.mp h with ⟨hz, hl⟩
    by_cases hc : z.2.Total < x.2.Total
    · rw [if_pos hc]
      refine List.pairwise_cons.mpr ⟨?_, h⟩
      intro b hb
      rcases List.mem_cons.mp hb with h1 | h2
      · exact h1 ▸ Nat.le_of_lt hc
      · exact Nat.le_trans (hz b h2) (Nat.le_of_lt hc)
    · rw [if_neg hc]
      refine List.pairwise_cons.mpr ⟨?_, pairwise_insertByCalls hl⟩
      intro b hb
      rcases mem_insertByCalls hb with h1 | h1
      · exact h1 ▸ Nat.le_of_not_lt hc
      · exact hz b h1

theorem sortByCallsDesc_pairwise (l : List (String × PartyAgg)) :
    List.Pairwise (fun a b => b.2.Total ≤ a.2.Total) (Vi.sortByCallsDesc l) := by
  unfold Vi.sortByCallsDesc
  induction l with
  | nil => exact List.Pairwise.nil
  | cons x l ih => exact pairwise_insertByCalls ih

/-- C7: in the party-ranked-by-call-count report, the call-count column is
non-increasing over every adjacent pair of ranked rows, and that column is
exactly the rendered total-call count of the descending sort. -/
theorem C7_rank_monotone (cdr : String) (l : List (String × PartyAgg)) :
    List.Chain' (fun a b => b ≤ a)
      ((Vi.sortByCallsDesc l).map (fun kv => kv.2.Total)) ∧
    (Vi.maxCallsRanked cdr l).map (fun r => r.getD 3 "") =
      (Vi.sortByCallsDesc l).map (fun kv => toString kv.2.Total) := by
  constructor
  · exact List.Pairwise.chain'
      (List.Pairwise.map (fun kv : String × PartyAgg => kv.2.Total)
        (fun a b h => h) (sortByCallsDesc_pairwise l))
  · unfold Vi.maxCallsRanked
    rw [List.map_map]
    rfl

/- ── C8: determinism of the summary output ── -/

/-- C8 counterexample: two runs over the same aggregate map content can
enumerate it in different orders (Go map iteration order is not fixed), and
the emitted summary files then differ as byte sequences, refuting
byte-identical re-runs. -/
theorem C8_counterexample :
    List.Perm [aggP1, aggP2] [aggP2, aggP1] ∧
    Vi.summaryFileRows "900" [aggP1, aggP2] ≠ Vi.summaryFileRows "900" [aggP2, aggP1] := by
  constructor
  · exact List.Perm.swap aggP2 aggP1 []
  · intro h
    have h2 := congrArg (fun rows => (rows.getD 1 []).getD 1 "") h
    simp [Vi.summaryFileRows, Vi.summaryRow, aggP1, aggP2] at h2

/-- C8 amended: re-running the same input against the same reference tables
reproduces the summary table up to row order: any two enumeration orders of
the same aggregate map yield permutations of the same summary rows (the
row-level table, a pure function of its input in this embedding, is
byte-identical; the summary row order is not determined by the input). -/
theorem C8_summary_perm (cdr : String) (e₁ e₂ : List PartyAgg) (h : e₁.Perm e₂) :
    (Vi.summaryFileRows cdr e₁).Perm (Vi.summaryFileRows cdr e₂) :=
  List.Perm.cons _ (h.map _)

/-- C8 witness: the two concrete enumeration orders of the counterexample
produce permutations of each other. -/
theorem C8_summary_perm_witness :
    (Vi.summaryFileRows "900" [aggP1, aggP2]).Perm
      (Vi.summaryFileRows "900" [aggP2, aggP1]) :=
  C8_summary_perm "900" [aggP1, aggP2] [aggP2, aggP1] (List.Perm.swap aggP2 aggP1 [])

/- ── C2: identifier fallback chain ── -/

theorem bannerB_header {rec : List String} (rest : List (List String))
    (h : Bsnl.isHeaderB rec = true) :
    Bsnl.bannerB (rec :: rest) = Bsnl.extractCDR (joinSpace rec) := by
  unfold Bsnl.bannerB
  rw [List.takeWhile_cons_of_neg (by simp [h]), List.dropWhile_cons_of_neg (by simp [h])]
  simp only [List.take_succ_cons, List.take_zero, List.nil_append, List.findSome?_cons]
  by_cases he : Bsnl.extractCDR (joinSpace rec) = ""
  · simp [he]
  · simp [he]

theorem bannerB_skip {rec : List String} (rest : List (List String))
    (h : Bsnl.isHeaderB rec = false) :
    Bsnl.bannerB (rec :: rest) =
      (if Bsnl.extractCDR (joinSpace rec) = "" then Bsnl.bannerB rest
       else Bsnl.extractCDR (joinSpace rec)) := by
  unfold Bsnl.bannerB
  rw [List.takeWhile_cons_of_pos (by simp [h]), List.dropWhile_cons_of_pos (by simp [h])]
  simp only [List.cons_append, List.findSome?_cons]
  by_cases he : Bsnl.extractCDR (joinSpace rec) = ""
  · simp [he]
  · simp [he]

/-- The identifier candidate accumulated by the bsnl locating loop is the
first non-empty banner extraction over the scanned records (or the seed
when that is already non-empty). -/
theorem locateBSNL_cdr : ∀ (input : List (List String)) (cdr0 c : String)
    (header : List String) (rest : List (List String)),
    Bsnl.locateBSNL input cdr0 = some (c, header, rest) →
    c = (if cdr0 = "" then Bsnl.bannerB input else cdr0)
  | [], cdr0, c, header, rest, h => by cases h
  | rec :: input, cdr0, c, header, rest, h => by
    unfold Bsnl.locateBSNL at h
    by_cases hh : Bsnl.isHeaderB rec = true
    · rw [if_pos hh] at h
      injection h with h1
      injection h1 with h2 _
      rw [bannerB_header input hh]
      by_cases h0 : cdr0 = ""
      · simp [h0] at h2
        simp [h0, h2]
      · simp [h0] at h2
        rw [if_neg h0]
        exact h2.symm
    · replace hh : Bsnl.isHeaderB rec = false := by
        cases hx : Bsnl.isHeaderB rec
        · rfl
        · exact absurd hx hh
      rw [if_neg (by simp [hh])] at h
      have ih := locateBSNL_cdr input _ c header rest h
      rw [bannerB_skip input hh]
      by_cases h0 : cdr0 = ""
      · simp only [h0, if_pos rfl] at ih ⊢
        by_cases he : Bsnl.extractCDR (joinSpace rec) = ""
        · rw [if_pos he]
          simpa [he] using ih
        · rw [if_neg he]
          simpa [he] using ih
      · simp only [h0, if_neg h0] at ih ⊢
        simpa [h0] using ih

/-- C2: the correlation identifier of the bsnl normalizer is resolved by a
first-success-wins chain: the banner extraction over pre-header records,
then the designated identifier column of the first data record, then the
digits of the source file name; the run aborts only when all three are
empty. -/
theorem C2_fallback_chain (input : List (List String)) (src cdr0 : String)
    (header firstData : List String) (rest : List (List String))
    (h1 : Bsnl.locateBSNL input "" = some (cdr0, header, firstData :: rest)) :
    Bsnl.resolveBSNL input src =
      (if Bsnl.firstNonempty
          [Bsnl.bannerB input, Bsnl.idColB header firstData, digitsStr (baseName src)] = ""
       then Except.error "cannot determine CDR"
       else Except.ok (Bsnl.firstNonempty
          [Bsnl.bannerB input, Bsnl.idColB header firstData, digitsStr (baseName src)])) := by
  have hc : cdr0 = Bsnl.bannerB input := by
    have h2 := locateBSNL_cdr input "" cdr0 header (firstData :: rest) h1
    simpa using h2
  unfold Bsnl.resolveBSNL
  rw [h1]
  subst hc
  by_cases hb : Bsnl.bannerB input = ""
  · by_cases hi : Bsnl.idColB header firstData = ""
    · by_cases hf : digitsStr (baseName src) = ""
      · simp [Bsnl.firstNonempty, hb, hi, hf]
      · simp [Bsnl.firstNonempty, hb, hi, hf]
    · simp [Bsnl.firstNonempty, hb, hi]
  · simp [Bsnl.firstNonempty, hb]

/-- C2 witness: an input with no banner line and no identifier column, but a
ten-digit file name, resolves that digit string as the CdrNo. -/
theorem C2_fallback_chain_witness :
    Bsnl.resolveBSNL exInputB "9876543210.csv" = Except.ok "9876543210" := by
  rw [C2_fallback_chain exInputB "9876543210.csv" ""
    ["call_date", "other_party_no"] ["2024-01-01", "123"] [] (by decide)]
  rfl

/- ── C1: fatal-abort conditions of the airtel normalizer ── -/

theorem locateAirtel_none : ∀ (input : List (List String)) (cdr0 : String),
    Airtel.locateAirtel input cdr0 = none ↔ Airtel.noHeaderRow input = true
  | [], cdr0 => by simp [Airtel.locateAirtel, Airtel.noHeaderRow]
  | rec :: rest, cdr0 => by
    unfold Airtel.locateAirtel Airtel.noHeaderRow
    by_cases hh : Airtel.isHeaderRec rec = true
    · simp [hh]
    · replace hh : Airtel.isHeaderRec rec = false := Bool.of_not_eq_true hh
      rw [if_neg (by simp [hh])]
      simp only [List.all_cons, hh, Bool.not_false, Bool.true_and]
      exact locateAirtel_none rest _

theorem scannedRecs_header {rec : List String} (rest : List (List String))
    (h : Airtel.isHeaderRec rec = true) : Airtel.scannedRecs (rec :: rest) = [rec] := by
  unfold Airtel.scannedRecs
  rw [List.takeWhile_cons_of_neg (by simp [h]), List.dropWhile_cons_of_neg (by simp [h])]
  rfl

theorem scannedRecs_skip {rec : List String} (rest : List (List String))
    (h : Airtel.isHeaderRec rec = false) :
    Airtel.scannedRecs (rec :: rest) = rec :: Airtel.scannedRecs rest := by
  unfold Airtel.scannedRecs
  rw [List.takeWhile_cons_of_pos (by simp [h]), List.dropWhile_cons_of_pos (by simp [h])]
  rfl

theorem theHeader_header {rec : List String} (rest : List (List String))
    (h : Airtel.isHeaderRec rec = true) : Airtel.theHeader (rec :: rest) = rec := by
  unfold Airtel.theHeader
  rw [List.dropWhile_cons_of_neg (by simp [h])]
  rfl

theorem theHeader_skip {rec : List String} (rest : List (List String))
    (h : Airtel.isHeaderRec rec = false) :
    Airtel.theHeader (rec :: rest) = Airtel.theHeader rest := by
  unfold Airtel.theHeader
  rw [List.dropWhile_cons_of_pos (by simp [h])]

/-- The locating loop returns the header record of the stream, and its
identifier candidate is empty exactly when the seed was empty and every
scanned banner extraction was empty. -/
theorem locateAirtel_some : ∀ (input : List (List String)) (cdr0 c : String)
    (header : List String) (rest : List (List String)),
    Airtel.locateAirtel input cdr0 = some (c, header, rest) →
    header = Airtel.theHeader input ∧
      (c = "" ↔ (cdr0 = "" ∧ Airtel.bannerEmpty input = true))
  | [], cdr0, c, header, rest, h => by cases h
  | rec :: input, cdr0, c, header, rest, h => by
    unfold Airtel.locateAirtel at h
    by_cases hh : Airtel.isHeaderRec rec = true
    · rw [if_pos hh] at h
      injection h with h1
      injection h1 with h2 h3
      injection h3 with h4 h5
      refine ⟨by rw [theHeader_header input hh, h4], ?_⟩
      unfold Airtel.bannerEmpty
      rw [scannedRecs_header input hh]
      subst h2
      by_cases h0 : cdr0 = "" <;> by_cases he : Airtel.extractCdrNumber (rec.headD "") = "" <;>
        simp [h0, he]
    · replace hh : Airtel.isHeaderRec rec = false := Bool.of_not_eq_true hh
      rw [if_neg (by simp [hh])] at h
      obtain ⟨ih1, ih2⟩ := locateAirtel_some input _ c header rest h
      refine ⟨by rw [theHeader_skip input hh]; exact ih1, ?_⟩
      unfold Airtel.bannerEmpty
      rw [scannedRecs_skip input hh]
      simp only [List.all_cons]
      rw [ih2]
      unfold Airtel.bannerEmpty
      by_cases h0 : cdr0 = "" <;> by_cases he : Airtel.extractCdrNumber (rec.headD "") = "" <;>
        simp [h0, he]

theorem isHeaderRec_theHeader : ∀ (input : List (List String)),
    Airtel.noHeaderRow input = false → Airtel.isHeaderRec (Airtel.theHeader input) = true
  | [], h => by simp [Airtel.noHeaderRow] at h
  | rec :: rest, h => by
    by_cases hh : Airtel.isHeaderRec rec = true
    · rw [theHeader_header rest hh]; exact hh
    · replace hh : Airtel.isHeaderRec rec = false := Bool.of_not_eq_true hh
      rw [theHeader_skip rest hh]
      apply isHeaderRec_theHeader
      unfold Airtel.noHeaderRow at h ⊢
      rw [List.all_cons, hh] at h
      simpa using h

/-- The first cell of a header record cannot normalize to a column name that
avoids the letter e, because it contains the literal Target No. -/
theorem header_first_ne {rec : List String} (h : Airtel.isHeaderRec rec = true)
    (key : String) (hkey : ('e' : Char) ∉ key.data) : normGo (rec.headD "") ≠ key := by
  intro heq
  have hcontains : containsSub (rec.headD "") "Target No" = true := by
    unfold Airtel.isHeaderRec at h
    simp only [Bool.and_eq_true] at h
    exact h.2
  have he1 : ('e' : Char) ∈ (rec.headD "").data :=
    containsSub_mem hcontains (by decide)
  have he2 : Char.toLower 'e' ∈ (normGo (rec.headD "")).data :=
    mem_normGo he1 (by decide) (by decide)
  rw [heq] at he2
  exact hkey (by simpa using he2)

theorem lastIdxGo_eq_zero (key : String) : ∀ (t : List String) (i acc : Nat), 1 ≤ i →
    (Airtel.lastIdxGo key t i acc = 0 ↔
      (acc = 0 ∧ t.all (fun h => !decide (normGo h = key)) = true))
  | [], i, acc, _ => by simp [Airtel.lastIdxGo]
  | h :: t, i, acc, hi => by
    unfold Airtel.lastIdxGo
    by_cases hk : normGo h = key
    · rw [if_pos hk]
      rw [lastIdxGo_eq_zero key t (i + 1) i (by omega)]
      simp [hk]
      omega
    · rw [if_neg hk]
      rw [lastIdxGo_eq_zero key t (i + 1) acc (by omega)]
      simp [hk]

theorem lastIdxD_eq_zero {header : List String} (key : String)
    (hhr : Airtel.isHeaderRec header = true) (hkey : ('e' : Char) ∉ key.data) :
    (Airtel.lastIdxD header key = 0 ↔
      header.all (fun h => !decide (normGo h = key)) = true) := by
  cases header with
  | nil => simp [Airtel.isHeaderRec] at hhr
  | cons h0 t =>
    have hne : normGo h0 ≠ key := header_first_ne hhr key hkey
    unfold Airtel.lastIdxD Airtel.lastIdxGo
    rw [if_neg hne]
    rw [lastIdxGo_eq_zero key t 1 0 (by omega)]
    simp [hne]

/-- Bool bridge: all entries fail a test exactly when none passes it. -/
theorem all_not_eq_any (l : List String) (p : String → Prop) [DecidablePred p] :
    l.all (fun h => !decide (p h)) = true ↔ l.any (fun h => decide (p h)) = false := by
  simp [List.all_eq_true, List.any_eq_true]

/-- C1: the airtel normalizer aborts with an error exactly when the header
row is never found, or the correlation identifier is unresolvable from every
scanned banner line, or the located header lacks a first or last
cell-identifier column; and an aborted run emits zero output rows. -/
theorem C1_fatal_abort (cellDB : String → Option Airtel.CellInfoA)
    (lrnDB : String → Option Airtel.LRNInfoA)
    (input : List (List String)) (crime : String) :
    ((∃ e, Airtel.normalizeAirtel cellDB lrnDB input crime = Except.error e) ↔
      (Airtel.noHeaderRow input = true ∨ Airtel.bannerEmpty input = true ∨
        Airtel.cgiMissing input = true)) ∧
    (∀ e, Airtel.normalizeAirtel cellDB lrnDB input crime = Except.error e →
      Airtel.rowsOf (Airtel.normalizeAirtel cellDB lrnDB input crime) = []) := by
  constructor
  · cases hloc : Airtel.locateAirtel input "" with
    | none =>
      have hrw : Airtel.normalizeAirtel cellDB lrnDB input crime = Except.error "no header" := by
        unfold Airtel.normalizeAirtel
        rw [hloc]
      rw [hrw]
      constructor
      · intro _
        exact Or.inl ((locateAirtel_none input "").mp hloc)
      · intro _
        exact ⟨"no header", rfl⟩
    | some t =>
      obtain ⟨c, header, rest⟩ := t
      have hrw : Airtel.normalizeAirtel cellDB lrnDB input crime =
          (if c = "" then Except.error "cannot extract CDR"
           else if Airtel.lastIdxD header "first cgi" = 0 ∨
               Airtel.lastIdxD header "last cgi" = 0 then
             Except.error "missing First/Last CGI"
           else Except.ok (rest.filterMap (fun rec =>
             if rec.length = 0 then none
             else some (Airtel.rowAirtel cellDB lrnDB header
               (Airtel.lastIdxD header "first cgi") (Airtel.lastIdxD header "last cgi")
               c crime rec)))) := by
        unfold Airtel.normalizeAirtel
        rw [hloc]
      rw [hrw]
      have hnh : Airtel.noHeaderRow input = false := by
        cases hx : Airtel.noHeaderRow input
        · rfl
        · have := (locateAirtel_none input "").mpr hx
          rw [hloc] at this
          cases this
      obtain ⟨hhead, hciff⟩ := locateAirtel_some input "" c header rest hloc
      by_cases hc : c = ""
      · have hbe : Airtel.bannerEmpty input = true := (hciff.mp hc).2
        rw [if_pos hc]
        constructor
        · intro _
          exact Or.inr (Or.inl hbe)
        · intro _
          exact ⟨"cannot extract CDR", rfl⟩
      · rw [if_neg hc]
        have hbe : Airtel.bannerEmpty input = false := by
          cases hx : Airtel.bannerEmpty input
          · rfl
          · exact absurd (hciff.mpr ⟨rfl, hx⟩) hc
        have hhr : Airtel.isHeaderRec header = true := by
          rw [hhead]
          exact isHeaderRec_theHeader input hnh
        by_cases hfc : Airtel.lastIdxD header "first cgi" = 0 ∨
            Airtel.lastIdxD header "last cgi" = 0
        · rw [if_pos hfc]
          constructor
          · intro _
            refine Or.inr (Or.inr ?_)
            unfold Airtel.cgiMissing
            rw [hnh, ← hhead]
            rcases hfc with hf | hf
            · have := (all_not_eq_any header (fun h => normGo h = "first cgi")).mp
                ((lastIdxD_eq_zero "first cgi" hhr (by decide)).mp hf)
              simp [this]
            · have := (all_not_eq_any header (fun h => normGo h = "last cgi")).mp
                ((lastIdxD_eq_zero "last cgi" hhr (by decide)).mp hf)
              simp [this]
          · intro _
            exact ⟨"missing First/Last CGI", rfl⟩
        · rw [if_neg hfc]
          push_neg at hfc
          obtain ⟨hf1, hf2⟩ := hfc
          constructor
          · rintro ⟨e, he⟩
            cases he
          · intro h
            exfalso
            rcases h with h | h | h
            · rw [hnh] at h; cases h
            · rw [hbe] at h; cases h
            · unfold Airtel.cgiMissing at h
              rw [hnh, ← hhead] at h
              have ha1 : header.any (fun h => decide (normGo h = "first cgi")) = true := by
                cases hx : header.any (fun h => decide (normGo h = "first cgi"))
                · exact absurd ((lastIdxD_eq_zero "first cgi" hhr (by decide)).mpr
                    ((all_not_eq_any header _).mpr hx)) hf1
                · rfl
              have ha2 : header.any (fun h => decide (normGo h = "last cgi")) = true := by
                cases hx : header.any (fun h => decide (normGo h = "last cgi"))
                · exact absurd ((lastIdxD_eq_zero "last cgi" hhr (by decide)).mpr
                    ((all_not_eq_any header _).mpr hx)) hf2
                · rfl
              rw [ha1, ha2] at h
              simp at h
  · intro e he
    unfold Airtel.rowsOf
    rw [he]

/-- C1 witness: a stream with a single junk record has no header row, the
run aborts, and zero rows are emitted. -/
theorem C1_fatal_abort_witness :
    Airtel.noHeaderRow [["junk"]] = true ∧
    (∃ e, Airtel.normalizeAirtel (fun _ => none) (fun _ => none) [["junk"]] "x" =
      Except.error e) ∧
    Airtel.rowsOf (Airtel.normalizeAirtel (fun _ => none) (fun _ => none) [["junk"]] "x") =
      [] := by
  refine ⟨by decide, ?_, ?_⟩
  · exact (C1_fatal_abort (fun _ => none) (fun _ => none) [["junk"]] "x").1.mpr
      (Or.inl (by decide))
  · exact (C1_fatal_abort (fun _ => none) (fun _ => none) [["junk"]] "x").2
      "no header" (by rfl)

/- ── aggregation-engine lemmas (C3, C4, C10) ── -/

theorem bump_Total (a : PartyAgg) (row : List String) : (bump a row).Total = a.Total + 1 := by
  unfold bump
  cases hq : parseFloatQ (rowGet row "Duration") <;>
    simp [hq, apply_ite PartyAgg.Total]

theorem bump_dirSum (a : PartyAgg) (row : List String) :
    (bump a row).Out + (bump a row).In + (bump a row).OutSMS + (bump a row).InSMS +
      (bump a row).Other =
    a.Out + a.In + a.OutSMS + a.InSMS + a.Other + 1 := by
  unfold bump
  cases hq : parseFloatQ (rowGet row "Duration") <;>
    simp [hq, apply_ite PartyAgg.Out, apply_ite PartyAgg.In, apply_ite PartyAgg.OutSMS,
      apply_ite PartyAgg.InSMS, apply_ite PartyAgg.Other] <;>
    split_ifs <;> omega

theorem bump_Dur (a : PartyAgg) (row : List String) :
    (bump a row).Dur = a.Dur + durTerm row := by
  unfold bump
  cases hq : parseFloatQ (rowGet row "Duration") <;>
    simp [hq, durTerm, apply_ite PartyAgg.Dur]

theorem bump_First (a : PartyAgg) (row : List String) :
    (bump a row).First =
      (if a.First = "" || strLt (dtOf row) a.First then dtOf row else a.First) := by
  unfold bump
  cases hq : parseFloatQ (rowGet row "Duration") <;>
    simp [hq, apply_ite PartyAgg.First]

theorem bump_Last (a : PartyAgg) (row : List String) :
    (bump a row).Last =
      (if a.Last = "" || strLt a.Last (dtOf row) then dtOf row else a.Last) := by
  unfold bump
  cases hq : parseFloatQ (rowGet row "Duration") <;>
    simp [hq, apply_ite PartyAgg.Last]

/-- One aggregation step, read at an arbitrary key. -/
theorem aggStep_at (m : String → Option PartyAgg) (row : List String) (k : String) :
    aggStep m row k =
      (if k = bKeyOf row then stepKey (bKeyOf row) (m (bKeyOf row)) row else m k) := by
  unfold aggStep stepKey
  cases hm : m (bKeyOf row) <;> simp [hm]

/-- The aggregate map at a key k is the per-key fold over exactly the rows
whose key is k. -/
theorem aggregate_filter : ∀ (rows : List (List String)) (m : String → Option PartyAgg)
    (k : String),
    rows.foldl aggStep m k =
      (rows.filter (fun r => bKeyOf r == k)).foldl (stepKey k) (m k)
  | [], m, k => rfl
  | row :: rows, m, k => by
    rw [List.foldl_cons, aggregate_filter rows (aggStep m row) k]
    by_cases hk : bKeyOf row = k
    · rw [List.filter_cons_of_pos (by simp [hk]), List.foldl_cons]
      have h2 : aggStep m row k = stepKey k (m k) row := by
        rw [aggStep_at, if_pos hk.symm, hk]
      rw [h2]
    · rw [List.filter_cons_of_neg (by simp [hk])]
      have h2 : aggStep m row k = m k := by
        rw [aggStep_at, if_neg (fun h => hk h.symm)]
      rw [h2]

theorem totalOf_stepKey (k : String) (o : Option PartyAgg) (r : List String) :
    totalOf (stepKey k o r) = totalOf o + 1 := by
  unfold stepKey totalOf
  cases o <;> simp [bump_Total, initAgg]

theorem totalOf_foldl : ∀ (l : List (List String)) (k : String) (o : Option PartyAgg),
    totalOf (l.foldl (stepKey k) o) = totalOf o + l.length
  | [], k, o => by simp
  | r :: l, k, o => by
    rw [List.foldl_cons, totalOf_foldl l k _, totalOf_stepKey]
    simp only [List.length_cons]
    omega

theorem dirSumOf_stepKey (k : String) (o : Option PartyAgg) (r : List String) :
    dirSumOf (stepKey k o r) = dirSumOf o + 1 := by
  unfold stepKey dirSumOf
  cases o <;> simp [bump_dirSum, initAgg]

theorem dirSumOf_foldl : ∀ (l : List (List String)) (k : String) (o : Option PartyAgg),
    dirSumOf (l.foldl (stepKey k) o) = dirSumOf o + l.length
  | [], k, o => by simp
  | r :: l, k, o => by
    rw [List.foldl_cons, dirSumOf_foldl l k _, dirSumOf_stepKey]
    simp only [List.length_cons]
    omega

theorem durOf_stepKey (k : String) (o : Option PartyAgg) (r : List String) :
    durOf (stepKey k o r) = durOf o + durTerm r := by
  unfold stepKey durOf
  cases o <;> simp [bump_Dur, initAgg]

theorem durOf_foldl : ∀ (l : List (List String)) (k : String) (o : Option PartyAgg),
    durOf (l.foldl (stepKey k) o) = durOf o + (l.map durTerm).sum
  | [], k, o => by simp
  | r :: l, k, o => by
    rw [List.foldl_cons, durOf_foldl l k _, durOf_stepKey]
    rw [List.map_cons, List.sum_cons]
    ring

/-- C10: for every party key, the five direction counters partition the
total (each emitted record increments exactly one of them), and the total
equals the number of emitted rows carrying that key (blank keys counted
under the blank sentinel). -/
theorem C10_direction_partition (rows : List (List String)) (k : String) :
    totalOf (aggregateRows rows k) =
      dirSumOf (aggregateRows rows k) ∧
    totalOf (aggregateRows rows k) = rows.countP (fun r => bKeyOf r == k) := by
  unfold aggregateRows
  rw [aggregate_filter rows (fun _ => none) k]
  constructor
  · rw [totalOf_foldl, dirSumOf_foldl]
    rfl
  · rw [totalOf_foldl, List.countP_eq_length_filter]
    simp [totalOf]

theorem parseFloatQ_nat (s : String) (v : Nat) (h : parseFloatRep s = some (false, v, 0, 0)) :
    (parseFloatQ s).getD 0 = (v : ℚ) := by
  unfold parseFloatQ
  rw [h]
  simp [repToQ]

/-- C3: for every party key, the total duration at end of run is the sum of
the parsable durations of the emitted rows with that key, an unparsable one
contributing zero without failing anything; and the concrete duration
sequence ten, twenty, unparsable, five, zero totals thirty-five. -/
theorem C3_duration_total :
    (∀ (rows : List (List String)) (k : String),
      durOf (aggregateRows rows k) =
        ((rows.filter (fun r => bKeyOf r == k)).map durTerm).sum) ∧
    durOf (aggregateRows exRowsDur "777") = 35 := by
  have hgen : ∀ (rows : List (List String)) (k : String),
      durOf (aggregateRows rows k) =
        ((rows.filter (fun r => bKeyOf r == k)).map durTerm).sum := by
    intro rows k
    unfold aggregateRows
    rw [aggregate_filter rows (fun _ => none) k, durOf_foldl]
    simp [durOf]
  refine ⟨hgen, ?_⟩
  rw [hgen]
  have hf : exRowsDur.filter (fun r => bKeyOf r == "777") = exRowsDur := by decide
  rw [hf]
  have e1 : durTerm (exRow "777" "" "" "10") = 10 := by
    unfold durTerm
    rw [show rowGet (exRow "777" "" "" "10") "Duration" = "10" from rfl]
    rw [parseFloatQ_nat "10" 10 rfl]
    norm_num
  have e2 : durTerm (exRow "777" "" "" "20") = 20 := by
    unfold durTerm
    rw [show rowGet (exRow "777" "" "" "20") "Duration" = "20" from rfl]
    rw [parseFloatQ_nat "20" 20 rfl]
    norm_num
  have e3 : durTerm (exRow "777" "" "" "bad") = 0 := by
    unfold durTerm
    rw [show rowGet (exRow "777" "" "" "bad") "Duration" = "bad" from rfl]
    unfold parseFloatQ
    rw [show parseFloatRep "bad" = none from rfl]
    rfl
  have e4 : durTerm (exRow "777" "" "" "5") = 5 := by
    unfold durTerm
    rw [show rowGet (exRow "777" "" "" "5") "Duration" = "5" from rfl]
    rw [parseFloatQ_nat "5" 5 rfl]
    norm_num
  have e5 : durTerm (exRow "777" "" "" "0") = 0 := by
    unfold durTerm
    rw [show rowGet (exRow "777" "" "" "0") "Duration" = "0" from rfl]
    rw [parseFloatQ_nat "0" 0 rfl]
    norm_num
  unfold exRowsDur
  rw [List.map_cons, List.map_cons, List.map_cons, List.map_cons, List.map_cons,
    List.map_nil, e1, e2, e3, e4, e5]
  norm_num

/- ── C4: earliest and latest timestamp span ── -/

/-- The date-time string of a row always contains a space, so it is never
empty. -/
theorem dtOf_ne (row : List String) : dtOf row ≠ "" := by
  unfold dtOf
  intro h
  have h2 := congrArg String.data h
  rw [String.data_append, String.data_append] at h2
  simp at h2

/-- Folding further rows into an aggregate whose span boundaries are set
keeps the first field the lexicographic minimum, and the last field the
lexicographic maximum, of the boundary seeds and the observed date-time
strings. -/
theorem foldl_span : ∀ (l : List (List String)) (k : String) (a : PartyAgg),
    a.First ≠ "" → a.Last ≠ "" →
    ∃ b, l.foldl (stepKey k) (some a) = some b ∧
      b.First ∈ a.First :: l.map dtOf ∧
      (∀ s ∈ a.First :: l.map dtOf, strLt s b.First = false) ∧
      b.Last ∈ a.Last :: l.map dtOf ∧
      (∀ s ∈ a.Last :: l.map dtOf, strLt b.Last s = false)
  | [], k, a, hF, hL => by
    refine ⟨a, rfl, List.mem_singleton.mpr rfl, ?_, List.mem_singleton.mpr rfl, ?_⟩
    · intro s hs
      rw [List.mem_singleton.mp hs]
      exact strLt_irrefl a.First
    · intro s hs
      rw [List.mem_singleton.mp hs]
      exact strLt_irrefl a.Last
  | r :: l, k, a, hF, hL => by
    rw [List.foldl_cons]
    have hstep : stepKey k (some a) r = some (bump a r) := rfl
    rw [hstep]
    have hne1 : (bump a r).First ≠ "" := by
      rw [bump_First]
      split
      · exact dtOf_ne r
      · exact hF
    have hne2 : (bump a r).Last ≠ "" := by
      rw [bump_Last]
      split
      · exact dtOf_ne r
      · exact hL
    obtain ⟨b, hb, m1, lb1, m2, ub2⟩ := foldl_span l k (bump a r) hne1 hne2
    refine ⟨b, hb, ?_, ?_, ?_, ?_⟩
    · rw [List.map_cons]
      rcases List.mem_cons.mp m1 with h | h
      · have hcond : (bump a r).First = dtOf r ∨ (bump a r).First = a.First := by
          rw [bump_First]
          split
          · exact Or.inl rfl
          · exact Or.inr rfl
        rcases hcond with hc | hc
        · rw [h, hc]
          exact List.mem_cons_of_mem _ (List.mem_cons_self _ _)
        · rw [h, hc]
          exact List.mem_cons_self _ _
      · exact List.mem_cons_of_mem _ (List.mem_cons_of_mem _ h)
    · rw [List.map_cons]
      intro s hs
      by_cases hlt : strLt (dtOf r) a.First = true
      · have hFr : (bump a r).First = dtOf r := by
          rw [bump_First, if_pos (by simp [hlt])]
        have h2 := lb1 (bump a r).First (List.mem_cons_self _ _)
        rw [hFr] at h2
        rcases List.mem_cons.mp hs with h1 | h1
        · cases hy : strLt s b.First
          · rfl
          · rw [h1] at hy
            rw [strLt_trans hlt hy] at h2
            cases h2
        · rcases List.mem_cons.mp h1 with h3 | h3
          · rw [h3]
            exact h2
          · exact lb1 s (List.mem_cons_of_mem _ h3)
      · replace hlt : strLt (dtOf r) a.First = false := Bool.of_not_eq_true hlt
        have hFr : (bump a r).First = a.First := by
          rw [bump_First, if_neg (by simp [hF, hlt])]
        have h2 := lb1 (bump a r).First (List.mem_cons_self _ _)
        rw [hFr] at h2
        rcases List.mem_cons.mp hs with h1 | h1
        · rw [h1]
          exact h2
        · rcases List.mem_cons.mp h1 with h3 | h3
          · rw [h3]
            exact strLt_not_trans hlt h2
          · exact lb1 s (List.mem_cons_of_mem _ h3)
    · rw [List.map_cons]
      rcases List.mem_cons.mp m2 with h | h
      · have hcond : (bump a r).Last = dtOf r ∨ (bump a r).Last = a.Last := by
          rw [bump_Last]
          split
          · exact Or.inl rfl
          · exact Or.inr rfl
        rcases hcond with hc | hc
        · rw [h, hc]
          exact List.mem_cons_of_mem _ (List.mem_cons_self _ _)
        · rw [h, hc]
          exact List.mem_cons_self _ _
      · exact List.mem_cons_of_mem _ (List.mem_cons_of_mem _ h)
    · rw [List.map_cons]
      intro s hs
      by_cases hlt : strLt a.Last (dtOf r) = true
      · have hLr : (bump a r).Last = dtOf r := by
          rw [bump_Last, if_pos (by simp [hlt])]
        have h2 := ub2 (bump a r).Last (List.mem_cons_self _ _)
        rw [hLr] at h2
        rcases List.mem_cons.mp hs with h1 | h1
        · cases hy : strLt b.Last s
          · rfl
          · rw [h1] at hy
            rw [strLt_trans hy hlt] at h2
            cases h2
        · rcases List.mem_cons.mp h1 with h3 | h3
          · rw [h3]
            exact h2
          · exact ub2 s (List.mem_cons_of_mem _ h3)
      · replace hlt : strLt a.Last (dtOf r) = false := Bool.of_not_eq_true hlt
        have hLr : (bump a r).Last = a.Last := by
          rw [bump_Last, if_neg (by simp [hL, hlt])]
        have h2 := ub2 (bump a r).Last (List.mem_cons_self _ _)
        rw [hLr] at h2
        rcases List.mem_cons.mp hs with h1 | h1
        · rw [h1]
          exact h2
        · rcases List.mem_cons.mp h1 with h3 | h3
          · rw [h3]
            exact strLt_not_trans h2 hlt
          · exact ub2 s (List.mem_cons_of_mem _ h3)

/-- C4: for every key whose row set is non-empty, the final earliest field
is the lexicographic minimum, and the final latest field the lexicographic
maximum, of the observed date-time strings of the rows with that key. -/
theorem C4_span_lex_minmax (rows : List (List String)) (k : String)
    (h : rows.filter (fun r => bKeyOf r == k) ≠ []) :
    ∃ a, aggregateRows rows k = some a ∧
      a.First ∈ (rows.filter (fun r => bKeyOf r == k)).map dtOf ∧
      (∀ s ∈ (rows.filter (fun r => bKeyOf r == k)).map dtOf, strLt s a.First = false) ∧
      a.Last ∈ (rows.filter (fun r => bKeyOf r == k)).map dtOf ∧
      (∀ s ∈ (rows.filter (fun r => bKeyOf r == k)).map dtOf, strLt a.Last s = false) := by
  unfold aggregateRows
  rw [aggregate_filter rows (fun _ => none) k]
  obtain ⟨r, l, hl⟩ : ∃ r l, rows.filter (fun r => bKeyOf r == k) = r :: l := by
    cases hx : rows.filter (fun r => bKeyOf r == k) with
    | nil => exact absurd hx h
    | cons r l => exact ⟨r, l, rfl⟩
  rw [hl, List.foldl_cons]
  have hstep : stepKey k ((fun _ => none) k) r = some (bump (initAgg k r) r) := rfl
  rw [hstep]
  have hfi : (bump (initAgg k r) r).First = dtOf r := by
    rw [bump_First]
    rw [if_pos (by simp [initAgg])]
  have hla : (bump (initAgg k r) r).Last = dtOf r := by
    rw [bump_Last]
    rw [if_pos (by simp [initAgg])]
  obtain ⟨b, hb, m1, lb1, m2, ub2⟩ := foldl_span l k (bump (initAgg k r) r)
    (by rw [hfi]; exact dtOf_ne r) (by rw [hla]; exact dtOf_ne r)
  rw [hfi] at m1 lb1
  rw [hla] at m2 ub2
  rw [List.map_cons]
  exact ⟨b, hb, m1, lb1, m2, ub2⟩

/-- C4 witness: three out-of-order timestamps for one key yield the earliest
and latest of the example in the specification. -/
theorem C4_span_lex_minmax_witness :
    (∃ a, aggregateRows exRowsSpan "777" = some a ∧
      a.First ∈ (exRowsSpan.filter (fun r => bKeyOf r == "777")).map dtOf ∧
      (∀ s ∈ (exRowsSpan.filter (fun r => bKeyOf r == "777")).map dtOf,
        strLt s a.First = false) ∧
      a.Last ∈ (exRowsSpan.filter (fun r => bKeyOf r == "777")).map dtOf ∧
      (∀ s ∈ (exRowsSpan.filter (fun r => bKeyOf r == "777")).map dtOf,
        strLt a.Last s = false)) ∧
    firstOf (aggregateRows exRowsSpan "777") = "2024-01-01 09:00:00" ∧
    lastOf (aggregateRows exRowsSpan "777") = "2024-01-03 08:00:00" :=
  ⟨C4_span_lex_minmax exRowsSpan "777" (by decide), by decide, by decide⟩

end CDRSpec
